import Mathlib

/-!
Triple stream core: frame reassembly, the stream state machine, the unary and streaming
processors, the user stream, the header bridge, the options and the path tools.

A shallow embedding of `pkg/triple/stream.go`, `pkg/triple/user_stream.go`,
`internal/stream/processor.go`, `internal/codec/header.go`, `pkg/config/config.go` and
`internal/tools/tools.go`.

Conventions of the embedding:

* a `[]byte` / `bytes.Buffer` is the list of its bytes;
* an unbuffered channel is the list of the messages that were put on it and not yet
  received, oldest first (`put` appends at the end, a receive takes the first);
* a Go `panic` is an explicit outcome, carrying the state the call left behind
  (a panic does not roll back the writes made before it);
* `uint32` sizes are natural numbers: the code only stores and compares them
  (`int(uint32)` is exact on a 64-bit platform), it performs no arithmetic on them;
* a Go map is the list of its entries in the order a `range` loop visits them; maps,
  contexts and URLs handed to the code are not nil;
* header names and values are texts; the paths of `tools.go`, which the code indexes byte
  by byte, are byte lists.
-/

namespace Triple

/-! ## Buffer and MsgType (`stream.go`) -/

/-- Contents of a `[]byte`. -/
abbrev Bytes := List UInt8

/-- `type MsgType uint8`; only equality with the two constants is ever tested. -/
abbrev MsgType := Nat

/-- `DataMsgType = MsgType(1)`. -/
def DataMsgType : MsgType := 1

/-- `ServerStreamCloseMsgType = MsgType(2)`. -/
def ServerStreamCloseMsgType : MsgType := 2

/-- `status.Status`: an RPC outcome, a code and a message. -/
structure Status where
  code : Nat
  message : String
deriving DecidableEq, Repr

/-- A Go `error` value: either an error that carries a gRPC status
(what `status.Errorf` builds) or any other error, of which only the text matters. -/
inductive GoError where
  | statusError (st : Status)
  | plain (msg : String)
deriving DecidableEq, Repr

/-- `BufferMsg`, the basic transfer unit in one stream. A nil `buffer`, `st` or `err`
is `none`. -/
structure BufferMsg where
  buffer : Option Bytes := none
  msgType : MsgType := 0
  st : Option Status := none
  err : Option GoError := none
deriving DecidableEq, Repr

/-- `BufferMsg.GetMsgType`. -/
def BufferMsg.GetMsgType (bm : BufferMsg) : MsgType := bm.msgType

/-- `common.PackageHandler`, the frame codec: `Frame2PkgData` returns the payload bytes
found in a frame together with the total size declared by the frame header (a `uint32`),
`Pkg2FrameData` frames a payload. -/
structure PackageHandler where
  Frame2PkgData : Bytes → Bytes × Nat
  Pkg2FrameData : Bytes → Bytes

/-! ## Stream state -/

/-- `type streamState uint32`. -/
abbrev streamState := Nat

/-- `open = streamState(0)`. -/
def streamState.open : streamState := 0

/-- `halfClose = streamState(1)`. -/
def streamState.halfClose : streamState := 1

/-- `closed = streamState(2)`. -/
def streamState.closed : streamState := 2

/-! ## baseStream -/

/-- `baseStream`: the two queues, the reassembly accumulator (`splitBuffer.buffer`),
the size learned from the frame header and the lifecycle state. The fields `url`,
`header`, `service`, `facadeStream` and `status` take no part in the operations below. -/
structure baseStream where
  recvBuf : List BufferMsg
  sendBuf : List BufferMsg
  splitBuffer : Bytes
  fromFrameHeaderDataSize : Nat
  state : streamState
deriving DecidableEq, Repr

/-- `newBaseStream`: empty queues, state `open`, an empty accumulator and
(zero value) learned size 0. -/
def newBaseStream : baseStream :=
  { recvBuf := [], sendBuf := [], splitBuffer := [], fromFrameHeaderDataSize := 0,
    state := streamState.open }

/-- `baseStream.WriteStatus`: put a close-type message carrying `st` on the send queue. -/
def baseStream.WriteStatus (s : baseStream) (st : Status) : baseStream :=
  { s with sendBuf := s.sendBuf ++ [{ st := some st, msgType := ServerStreamCloseMsgType }] }

/-- `baseStream.putRecv`. -/
def baseStream.putRecv (s : baseStream) (data : Bytes) (msgType : MsgType) : baseStream :=
  { s with recvBuf := s.recvBuf ++ [{ buffer := some data, msgType := msgType }] }

/-- `baseStream.putSend`. -/
def baseStream.putSend (s : baseStream) (data : Bytes) (msgType : MsgType) : baseStream :=
  { s with sendBuf := s.sendBuf ++ [{ buffer := some data, msgType := msgType }] }

/-- How a call that may panic ends: it returns, or it panics with a message; in both
cases the receiver is left in state `s`. -/
inductive Outcome where
  | returned (s : baseStream)
  | panicked (s : baseStream) (msg : String)
deriving DecidableEq, Repr

/-- The stream a call left behind. -/
def Outcome.stream : Outcome → baseStream
  | .returned s => s
  | .panicked s _ => s

/-- Lines 158-168 of `putSplitedDataRecv`: the state right after
`s.splitBuffer.buffer.Write(splitedData)`, or `none` when the call has returned before
that line because the decoded total size is 0. -/
def baseStream.appendSplited (s : baseStream) (splitedData : Bytes)
    (frameHandler : PackageHandler) : Option baseStream :=
  if s.fromFrameHeaderDataSize = 0 then
    let r := frameHandler.Frame2PkgData splitedData
    if r.2 = 0 then none
    else some { s with fromFrameHeaderDataSize := r.2, splitBuffer := [] ++ r.1 }
  else some { s with splitBuffer := s.splitBuffer ++ splitedData }

/-- `baseStream.putSplitedDataRecv`. -/
def baseStream.putSplitedDataRecv (s : baseStream) (splitedData : Bytes) (msgType : MsgType)
    (frameHandler : PackageHandler) : Outcome :=
  if msgType ≠ DataMsgType then .returned s
  else
    match s.appendSplited splitedData frameHandler with
    | none => .returned s
    | some s1 =>
      if s1.splitBuffer.length > s1.fromFrameHeaderDataSize then
        .panicked s1 "Receive Splited Data is bigger than wanted!!!"
      else if s1.splitBuffer.length = s1.fromFrameHeaderDataSize then
        let s2 := s1.putRecv (frameHandler.Pkg2FrameData s1.splitBuffer) msgType
        .returned { s2 with splitBuffer := [], fromFrameHeaderDataSize := 0 }
      else .returned s1

/-- One call of `putSplitedDataRecv`: its three arguments. -/
structure SplitedCall where
  splitedData : Bytes
  msgType : MsgType
  frameHandler : PackageHandler

/-- Successive calls of `putSplitedDataRecv` on one stream, in order; a panic ends the
sequence. -/
def baseStream.putSplitedCalls (s : baseStream) : List SplitedCall → Outcome
  | [] => .returned s
  | c :: cs =>
    match s.putSplitedDataRecv c.splitedData c.msgType c.frameHandler with
    | .returned s1 => s1.putSplitedCalls cs
    | .panicked s1 msg => .panicked s1 msg

/-- Feeding the chunks of one direction through `putSplitedDataRecv(chunk, DataMsgType, h)`. -/
def baseStream.feed (s : baseStream) (h : PackageHandler) (chunks : List Bytes) : Outcome :=
  s.putSplitedCalls (chunks.map fun c => ⟨c, DataMsgType, h⟩)

/-- `baseStream.getState`. -/
def baseStream.getState (s : baseStream) : streamState := s.state

/-- `baseStream.setState`. -/
def baseStream.setState (s : baseStream) (ss : streamState) : baseStream :=
  { s with state := ss }

/-- `baseStream.onRecvEs`: the stream afterwards and the returned state. -/
def baseStream.onRecvEs (s : baseStream) : baseStream × streamState :=
  let s1 :=
    if s.state = streamState.open then { s with state := streamState.halfClose }
    else if s.state = streamState.halfClose then { s with state := streamState.closed }
    else s
  (s1, s1.state)

/-- The stream after `n` successive `onRecvEs` calls. -/
def baseStream.onRecvEsTimes (s : baseStream) : Nat → baseStream
  | 0 => s
  | n + 1 => (s.onRecvEsTimes n).onRecvEs.1

/-- The accumulator bound: nothing learned and nothing accumulated, or strictly fewer
bytes accumulated than the learned total. -/
def baseStream.accBound (s : baseStream) : Prop :=
  (s.fromFrameHeaderDataSize = 0 ∧ s.splitBuffer = []) ∨
    s.splitBuffer.length < s.fromFrameHeaderDataSize

/-- `TestTriplePackageHandler` of `pkg/common/protocol_test.go`: both directions are the
identity and the declared total size is always 0. -/
def TestTriplePackageHandler : PackageHandler where
  Frame2PkgData := fun frameData => (frameData, 0)
  Pkg2FrameData := fun pkgData => pkgData

/-- A small length-prefixed codec used to instantiate the theorems at concrete inputs:
the size header is one byte holding the payload length. -/
def lenCodec : PackageHandler where
  Frame2PkgData := fun frame =>
    match frame with
    | [] => ([], 0)
    | n :: rest => (rest, n.toNat)
  Pkg2FrameData := fun pkg => UInt8.ofNat pkg.length :: pkg

/-! ## Status, codes and panics (`internal/codes`, `internal/status`, Go runtime) -/

/-- Modelled from the spec: the library text functions that the sources call and that are
not among them: `fmt.Sprintf`, and the `Error()` text of an error built by
`status.Errorf`. No statement below depends on what they compute. -/
structure Texts where
  Sprintf : String → List String → String
  statusErrorText : Status → String

/-- Modelled from the spec: `codes.OK` of `internal/codes`, the status of a successful
call (gRPC numbering). -/
def codes.OK : Nat := 0

/-- Modelled from the spec: `codes.Canceled` of `internal/codes`, the status of a
processor terminated before any request arrived (gRPC numbering). -/
def codes.Canceled : Nat := 1

/-- Modelled from the spec: `codes.Unknown` of `internal/codes`, the status of an
unclassified runtime fault (gRPC numbering). -/
def codes.Unknown : Nat := 2

/-- Modelled from the spec: `codes.Internal` of `internal/codes`, the status of a
(de)serialization failure or application handler error (gRPC numbering). -/
def codes.Internal : Nat := 13

/-- The text returned by `err.Error()`. -/
def GoError.Error (t : Texts) : GoError → String
  | .statusError st => t.statusErrorText st
  | .plain msg => msg

/-- `errors.New`. -/
def errors.New (text : String) : GoError := .plain text

/-- Modelled from the spec: `status.New` of `internal/status`, the status with the given
code and message. -/
def status.New (c : Nat) (msg : String) : Status := ⟨c, msg⟩

/-- Modelled from the spec: `status.Errorf` of `internal/status`, the structured status
error whose code is `c` and whose message is the formatted text. -/
def status.Errorf (t : Texts) (c : Nat) (format : String) (args : List String) : GoError :=
  .statusError (status.New c (t.Sprintf format args))

/-- Modelled from the spec: `status.FromError` of `internal/status` on a non-nil error: an
error that carries a status yields it with `ok = true`; any other error yields
`ok = false` (together with an Unknown status holding the error text). -/
def status.FromError (err : GoError) : Status × Bool :=
  match err with
  | .statusError st => (st, true)
  | .plain msg => (status.New codes.Unknown msg, false)

/-- The value carried by a Go panic: a string (`panic("...")`), a runtime error (failed
type assertion, nil dereference, ...) or an error value (`panic(err)`). -/
inductive PanicValue where
  | str (text : String)
  | runtimeError (text : String)
  | error (err : GoError)
deriving DecidableEq, Repr

/-- The result of running code that may panic. -/
inductive Res (α : Type) where
  | returns (a : α)
  | panics (v : PanicValue)
deriving DecidableEq, Repr

/-! ## Processors (`internal/stream/processor.go`) -/

/-- `common.Dubbo3Serializer` over the message type `Msg`: `Marshal` returns the bytes or
an error; `Unmarshal(data, v)` fills `v`, here it returns the decoded message, or an
error. -/
structure Dubbo3Serializer (Msg : Type) where
  Marshal : Msg → Except GoError Bytes
  Unmarshal : Bytes → Except GoError Msg

/-- `grpc.MethodDesc`: the unary handler. It is given the decode function `dec` (here its
result when called: the decoded request or the wrapped unmarshal error) and either panics
or returns `(reply, err)`; a reply that is nil or not a `proto.Message` is `none`. The
service and the call context are whatever the handler closes over. -/
structure MethodDesc (Msg : Type) where
  Handler : Except GoError Msg → Res (Option Msg × Option GoError)

/-- `baseProcessor`: the stream it is bound to, the frame codec, the serializer; the
close channel (`true` once closed) and the `sync.Once` guarding it (`true` once fired). -/
structure baseProcessor (Msg : Type) where
  stream : baseStream
  pkgHandler : PackageHandler
  serializer : Dubbo3Serializer Msg
  closeChain : Bool := false
  quitOnce : Bool := false

/-- Modelled from the spec: `ServerStream.WriteCloseMsgTypeWithStatus`, called by
`processor.go` and not among the sources; it is `baseStream.WriteStatus` of `stream.go`:
one close-type message carrying the status is put on the send queue. -/
def baseStream.WriteCloseMsgTypeWithStatus (s : baseStream) (st : Status) : baseStream :=
  s.WriteStatus st

/-- Modelled from the spec: `ServerStream.PutSend`, called by `processor.go` and not among
the sources; it is `baseStream.putSend` of `stream.go`: one message holding the bytes is
put on the send queue. -/
def baseStream.PutSend (s : baseStream) (data : Bytes) (msgType : MsgType) : baseStream :=
  s.putSend data msgType

/-- `baseProcessor.handleRPCErr`: the stream after the call. -/
def baseProcessor.handleRPCErr {Msg : Type} (t : Texts) (s : baseProcessor Msg)
    (err : GoError) : baseStream :=
  match status.FromError err with
  | (appStatus, true) => s.stream.WriteCloseMsgTypeWithStatus appStatus
  | (_, false) =>
    let err1 := status.Errorf t codes.Unknown (err.Error t) []
    s.stream.WriteCloseMsgTypeWithStatus (status.FromError err1).1

/-- `baseProcessor.handleRPCSuccess`: send data and the success status; the stream after
the call. -/
def baseProcessor.handleRPCSuccess {Msg : Type} (s : baseProcessor Msg) (data : Bytes) :
    baseStream :=
  (s.stream.PutSend data DataMsgType).WriteCloseMsgTypeWithStatus (status.New codes.OK "")

/-- `unaryProcessor`. -/
structure unaryProcessor (Msg : Type) extends baseProcessor Msg where
  methodDesc : MethodDesc Msg

/-- The closure `descFunc` of `processUnaryRPC`, the `dec` handed to the handler: what a
call of it yields, the request unmarshalled from `pkgData` or the unmarshal error wrapped
as an Internal status error. -/
def unaryProcessor.descFunc {Msg : Type} (t : Texts) (p : unaryProcessor Msg)
    (pkgData : Bytes) : Except GoError Msg :=
  match p.serializer.Unmarshal pkgData with
  | .error err =>
    .error (status.Errorf t codes.Internal "Unary rpc request unmarshal error: %s"
      [err.Error t])
  | .ok v => .ok v

/-- `unaryProcessor.processUnaryRPC`: it panics, or returns `([]byte, error)`, where a nil
slice and a nil error are `none`. -/
def unaryProcessor.processUnaryRPC {Msg : Type} (t : Texts) (p : unaryProcessor Msg)
    (buf : Bytes) : Res (Option Bytes × Option GoError) :=
  let readBuf := buf
  let pkgData := (p.pkgHandler.Frame2PkgData readBuf).1
  match p.methodDesc.Handler (p.descFunc t pkgData) with
  | .panics v => .panics v
  | .returns (_, some err) =>
    .returns (none, some (status.Errorf t codes.Internal "Unary rpc handle error: %s"
      [err.Error t]))
  | .returns (reply, none) =>
    match reply with
    | none => .panics (.runtimeError "interface conversion: interface is not proto.Message")
    | some m =>
      match p.serializer.Marshal m with
      | .error err =>
        .returns (none, some (status.Errorf t codes.Internal
          "Unary rpc reoly marshal error: %s" [err.Error t]))
      | .ok replyData => .returns (some (p.pkgHandler.Pkg2FrameData replyData), none)

/-- Which case of the `select` in `unaryProcessor.runRPC` fires: the close signal, or a
message received from the stream's receive queue. -/
inductive SelectCase where
  | closeSignal
  | recv (recvMsg : BufferMsg)
deriving DecidableEq, Repr

/-- What the task started by `runRPC` leaves behind: the stream, and the panic that
escaped the task, if any. -/
structure TaskResult where
  stream : baseStream
  fault : Option PanicValue
deriving DecidableEq, Repr

/-- The body of the `recvMsg` case of `unaryProcessor.runRPC`, below the `defer`: the
stream when it returns, or the panic raised in it. All panics of the body are raised
before its first write to the stream. -/
def unaryProcessor.recvCase {Msg : Type} (t : Texts) (s : unaryProcessor Msg)
    (recvMsg : BufferMsg) : Res baseStream :=
  match recvMsg.err with
  | some e =>
    .returns (s.handleRPCErr t (status.Errorf t codes.Internal
      "error ,s.processUnaryRPC err = %s" [e.Error t]))
  | none =>
    match recvMsg.buffer with
    | none => .panics (.runtimeError "invalid memory address or nil pointer dereference")
    | some buf =>
      match s.processUnaryRPC t buf with
      | .panics v => .panics v
      | .returns (_, some err) => .returns (s.handleRPCErr t err)
      | .returns (rspData, none) => .returns (s.handleRPCSuccess (rspData.getD []))

/-- The deferred function of `unaryProcessor.runRPC` on a recovered panic value `e`:
`s.handleRPCErr(errors.New(e.(string)))`. The unchecked assertion `e.(string)` itself
panics when `e` is not a string, and that panic leaves the task. -/
def unaryProcessor.recovered {Msg : Type} (t : Texts) (s : unaryProcessor Msg)
    (e : PanicValue) : TaskResult :=
  match e with
  | .str text => ⟨s.handleRPCErr t (errors.New text), none⟩
  | _ => ⟨s.stream, some (.runtimeError "interface conversion: interface is not string")⟩

/-- The task started by `unaryProcessor.runRPC`, for the `select` case that fires. -/
def unaryProcessor.runRPC {Msg : Type} (t : Texts) (s : unaryProcessor Msg)
    (ev : SelectCase) : TaskResult :=
  match ev with
  | .closeSignal =>
    ⟨s.handleRPCErr t (status.Errorf t codes.Canceled "processor has been canceled!" []), none⟩
  | .recv recvMsg =>
    match s.recvCase t recvMsg with
    | .returns st => ⟨st, none⟩
    | .panics e => s.recovered t e

/-! ## User stream (`pkg/triple/user_stream.go`) -/

/-- `baseUserStream`, the base userstream impl. -/
structure baseUserStream (Msg : Type) where
  stream : baseStream
  serilizer : Dubbo3Serializer Msg
  pkgHandler : PackageHandler

/-- `baseUserStream.SendMsg`: the stream afterwards and the returned error. -/
def baseUserStream.SendMsg {Msg : Type} (ss : baseUserStream Msg) (m : Msg) :
    baseStream × Option GoError :=
  match ss.serilizer.Marshal m with
  | .error err => (ss.stream, some err)
  | .ok replyData =>
    let rspFrameData := ss.pkgHandler.Pkg2FrameData replyData
    (ss.stream.putSend rspFrameData DataMsgType, none)

/-- `baseUserStream.RecvMsg`: `none` while the receive queue is empty (the call blocks);
otherwise the stream after the first message has been taken, and the returned error or,
when it is nil, the value `m` was filled with. -/
def baseUserStream.RecvMsg {Msg : Type} (ss : baseUserStream Msg) :
    Option (baseStream × Except GoError Msg) :=
  match ss.stream.recvBuf with
  | [] => none
  | readBuf :: rest =>
    let st : baseStream := { ss.stream with recvBuf := rest }
    match readBuf.buffer with
    | none => some (st, .error (errors.New "user stream closed!"))
    | some b =>
      let pkgData := (ss.pkgHandler.Frame2PkgData b).1
      match ss.serilizer.Unmarshal pkgData with
      | .error err => some (st, .error err)
      | .ok v => some (st, .ok v)

/-- `serverUserStream`. -/
structure serverUserStream (Msg : Type) extends baseUserStream Msg

/-- `newServerUserStream`. -/
def newServerUserStream {Msg : Type} (s : baseStream) (serilizer : Dubbo3Serializer Msg)
    (pkgHandler : PackageHandler) : serverUserStream Msg :=
  { serilizer := serilizer, pkgHandler := pkgHandler, stream := s }

/-! ## Streaming processor -/

/-- How the run of a streaming handler against the user stream ends: it returns an error
or nil, or it panics; in both cases it leaves the stream in state `s` (with whatever it
sent and received through the wrapper). -/
inductive HandlerRun where
  | returned (s : baseStream) (err : Option GoError)
  | panicked (s : baseStream) (v : PanicValue)
deriving DecidableEq, Repr

/-- `grpc.StreamDesc`: the streaming handler, run against the user stream. -/
structure StreamDesc (Msg : Type) where
  Handler : serverUserStream Msg → HandlerRun

/-- `streamingProcessor`. -/
structure streamingProcessor (Msg : Type) extends baseProcessor Msg where
  streamDesc : StreamDesc Msg

/-- The task started by `streamingProcessor.runRPC`: the handler runs against the user
stream, its returned error is dropped, then `sp.handleRPCSuccess(nil)`; a panic of the
handler is not recovered. -/
def streamingProcessor.runRPC {Msg : Type} (sp : streamingProcessor Msg) : TaskResult :=
  let serverUserstream := newServerUserStream sp.stream sp.serializer sp.pkgHandler
  match sp.streamDesc.Handler serverUserstream with
  | .returned s1 _ =>
    ⟨({ sp.tobaseProcessor with stream := s1 } : baseProcessor Msg).handleRPCSuccess [], none⟩
  | .panicked s1 v => ⟨s1, some v⟩


/-! ## Header bridge (`internal/codec/header.go`) -/

/-- `TripleUserAgent`. -/
def TripleUserAgent : String := "grpc-go/1.35.0-dev"

/-- `TripleServiceVersion`. -/
def TripleServiceVersion : String := "tri-service-version"

/-- `TripleServiceGroup`. -/
def TripleServiceGroup : String := "tri-service-group"

/-- `TripleRequestID`. -/
def TripleRequestID : String := "tri-req-id"

/-- `TripleTraceID`. -/
def TripleTraceID : String := "tri-trace-traceid"

/-- `TripleTraceRPCID`. -/
def TripleTraceRPCID : String := "tri-trace-rpcid"

/-- `TripleTraceProtoBin`. -/
def TripleTraceProtoBin : String := "tri-trace-proto-bin"

/-- `TripleUnitInfo`. -/
def TripleUnitInfo : String := "tri-unit-info"

/-- `http.Header`, a (non-nil) `map[string][]string`: its entries, with pairwise distinct
keys, in the order in which a `range` loop visits them (any order is possible). -/
abbrev Header := List (String × List String)

/-- `header[key]`: the value list stored under `key`, if any. -/
def Header.get : Header → String → Option (List String)
  | [], _ => none
  | (k, v) :: rest, key => if k = key then some v else Header.get rest key

/-- `header[key] = value`. -/
def Header.set : Header → String → List String → Header
  | [], key, value => [(key, value)]
  | (k, v) :: rest, key, value =>
    if k = key then (key, value) :: rest else (k, v) :: Header.set rest key value

/-- `validHeaderFieldByte` of the Go library (`net/textproto`): the token characters of
RFC 7230, that is letters, digits and the fifteen marks given here by their codes. -/
def validHeaderFieldByte (c : Char) : Bool :=
  c.isAlphanum ||
    [33, 35, 36, 37, 38, 39, 42, 43, 45, 46, 94, 95, 96, 124, 126].contains c.toNat

/-- The rewriting loop of `canonicalMIMEHeaderKey`: upper case for the first letter and
for a letter after a dash, lower case for the other letters. -/
def canonicalLetters : Bool → List Char → List Char
  | _, [] => []
  | upper, c :: cs =>
    let c1 :=
      if upper && c.isLower then c.toUpper
      else if !upper && c.isUpper then c.toLower
      else c
    c1 :: canonicalLetters (c1 == '-') cs

/-- `textproto.CanonicalMIMEHeaderKey` of the Go library: a key made of token characters
is put in canonical form, any other key is returned unchanged. -/
def CanonicalMIMEHeaderKey (s : String) : String :=
  if s.data.all validHeaderFieldByte then String.mk (canonicalLetters true s.data) else s

/-- A value stored in a `context.Context`: a string, a string slice, or a value of any
other type. -/
inductive CtxValue where
  | str (val : String)
  | strs (val : List String)
  | other
deriving DecidableEq, Repr

/-- `context.Context` as seen through `ctx.Value(key)` on string keys; `none` is nil. -/
abbrev Context := String → Option CtxValue

/-- `context.Background()`. -/
def context.Background : Context := fun _ => none

/-- `context.WithValue`. -/
def context.WithValue (ctx : Context) (key : String) (val : CtxValue) : Context :=
  fun k => if k = key then some val else ctx k

/-- The connection URL (`dubboCommon.URL`, an external type): only `GetParam(key, default)`
is used. -/
structure URL where
  GetParam : String → String → String

/-- `constant.APP_VERSION_KEY` of the external constants package. -/
def constant.APP_VERSION_KEY : String := "app.version"

/-- `constant.GROUP_KEY` of the external constants package. -/
def constant.GROUP_KEY : String := "group"

/-- `TripleHeader` stores the needed http2 header fields of triple protocol; every field
starts at its zero value. -/
structure TripleHeader where
  Path : String := ""
  StreamID : Nat := 0
  ContentType : String := ""
  ServiceVersion : String := ""
  ServiceGroup : String := ""
  RPCID : String := ""
  TracingID : String := ""
  TracingRPCID : String := ""
  TracingContext : String := ""
  ClusterInfo : String := ""
  GrpcStatus : String := ""
  GrpcMessage : String := ""
  Authorization : List String := []
deriving DecidableEq, Repr

/-- `TripleHeader.GetPath`. -/
def TripleHeader.GetPath (t : TripleHeader) : String := t.Path

/-- `TripleHeader.FieldToCtx`. -/
def TripleHeader.FieldToCtx (t : TripleHeader) : Context :=
  let ctx := context.WithValue context.Background "tri-service-version" (.str t.ServiceVersion)
  let ctx := context.WithValue ctx "tri-service-group" (.str t.ServiceGroup)
  let ctx := context.WithValue ctx "tri-req-id" (.str t.RPCID)
  let ctx := context.WithValue ctx "tri-trace-traceid" (.str t.TracingID)
  let ctx := context.WithValue ctx "tri-trace-rpcid" (.str t.TracingRPCID)
  let ctx := context.WithValue ctx "tri-trace-proto-bin" (.str t.TracingContext)
  let ctx := context.WithValue ctx "tri-unit-info" (.str t.ClusterInfo)
  let ctx := context.WithValue ctx "grpc-status" (.str t.GrpcStatus)
  let ctx := context.WithValue ctx "grpc-message" (.str t.GrpcMessage)
  let ctx := context.WithValue ctx "authorization" (.strs t.Authorization)
  ctx

/-- `TripleHeaderHandler`. -/
structure TripleHeaderHandler where
  Url : URL
  Ctx : Context

/-- `getCtxVaSave`: get key `field`, if it does not exist (or is not a string), return the
empty string. -/
def getCtxVaSave (ctx : Context) (field : String) : String :=
  match ctx field with
  | some (.str val) => val
  | _ => ""

/-- Lines 123-136 of `WriteTripleReqHeaderField`: the eight unconditional assignments. -/
def TripleHeaderHandler.writeFixedFields (t : TripleHeaderHandler) (header : Header) :
    Header :=
  let header := header.set "user-agent" [TripleUserAgent]
  let header := header.set TripleServiceVersion [t.Url.GetParam constant.APP_VERSION_KEY ""]
  let header := header.set TripleServiceGroup [t.Url.GetParam constant.GROUP_KEY ""]
  let header := header.set TripleRequestID [getCtxVaSave t.Ctx TripleRequestID]
  let header := header.set TripleTraceID [getCtxVaSave t.Ctx TripleTraceID]
  let header := header.set TripleTraceRPCID [getCtxVaSave t.Ctx TripleTraceRPCID]
  let header := header.set TripleTraceProtoBin [getCtxVaSave t.Ctx TripleTraceProtoBin]
  let header := header.set TripleUnitInfo [getCtxVaSave t.Ctx TripleUnitInfo]
  header

/-- `TripleHeaderHandler.WriteTripleReqHeaderField`. -/
def TripleHeaderHandler.WriteTripleReqHeaderField (t : TripleHeaderHandler)
    (header : Header) : Header :=
  let header := t.writeFixedFields header
  match t.Ctx "authorization" with
  | some (.strs v) => if v.length ≠ 2 then header else header.set "authorization" v
  | _ => header

/-- `http.Request`: its header and `r.URL.Path`. -/
structure Request where
  Header : Header
  URLPath : String
deriving DecidableEq, Repr

/-- The indexing `v[0]`: the first element, or the index-out-of-range panic. -/
def firstValue (v : List String) : Res String :=
  match v with
  | [] => .panics (.runtimeError "index out of range [0] with length 0")
  | x :: _ => .returns x

/-- Continue with the returned value, or pass the panic on. -/
def Res.andThen {α β : Type} (r : Res α) (f : α → Res β) : Res β :=
  match r with
  | .returns a => f a
  | .panics v => .panics v

/-- The body of the `range` loop of `ReadFromTripleReqHeader` for one entry `k, v`: the
`switch` takes the first case whose value equals `k`. -/
def TripleHeaderHandler.readEntry (tripleHeader : TripleHeader) (k : String)
    (v : List String) : Res TripleHeader :=
  if k = CanonicalMIMEHeaderKey TripleServiceVersion then
    (firstValue v).andThen fun x => .returns { tripleHeader with ServiceVersion := x }
  else if k = CanonicalMIMEHeaderKey TripleServiceGroup then
    (firstValue v).andThen fun x => .returns { tripleHeader with ServiceGroup := x }
  else if k = CanonicalMIMEHeaderKey TripleRequestID then
    (firstValue v).andThen fun x => .returns { tripleHeader with RPCID := x }
  else if k = CanonicalMIMEHeaderKey TripleTraceID then
    (firstValue v).andThen fun x => .returns { tripleHeader with TracingID := x }
  else if k = CanonicalMIMEHeaderKey TripleTraceID then
    (firstValue v).andThen fun x => .returns { tripleHeader with TracingRPCID := x }
  else if k = CanonicalMIMEHeaderKey TripleTraceProtoBin then
    (firstValue v).andThen fun x => .returns { tripleHeader with TracingContext := x }
  else if k = CanonicalMIMEHeaderKey TripleUnitInfo then
    (firstValue v).andThen fun x => .returns { tripleHeader with ClusterInfo := x }
  else if k = CanonicalMIMEHeaderKey "content-type" then
    (firstValue v).andThen fun x => .returns { tripleHeader with ContentType := x }
  else if k = CanonicalMIMEHeaderKey "authorization" then
    (firstValue v).andThen fun x => .returns { tripleHeader with ContentType := x }
  else .returns tripleHeader

/-- The `range` loop of `ReadFromTripleReqHeader` over the entries in visiting order. -/
def TripleHeaderHandler.readEntries (tripleHeader : TripleHeader) : Header → Res TripleHeader
  | [] => .returns tripleHeader
  | (k, v) :: rest =>
    match TripleHeaderHandler.readEntry tripleHeader k v with
    | .returns th1 => TripleHeaderHandler.readEntries th1 rest
    | .panics e => .panics e

/-- `TripleHeaderHandler.ReadFromTripleReqHeader` (the receiver is not used): the
`TripleHeader` it returns, or the panic of an indexing `v[0]`. -/
def TripleHeaderHandler.ReadFromTripleReqHeader (r : Request) : Res TripleHeader :=
  TripleHeaderHandler.readEntries { Path := r.URLPath } r.Header

/-- Delivery of a header map by the HTTP layer: every name in canonical form. -/
def canonicalizeNames (header : Header) : Header :=
  header.map fun e => (CanonicalMIMEHeaderKey e.1, e.2)

/-- The loop body treats the field `f` as the field read from the header name `K`: on an
entry with at least one value it returns, and `f` then holds the first value when the
entry is named `K` and is unchanged otherwise. -/
def TripleHeaderHandler.ReadsField (f : TripleHeader → String) (K : String) : Prop :=
  ∀ (th : TripleHeader) (k x : String) (xs : List String),
    ∃ th1, TripleHeaderHandler.readEntry th k (x :: xs) = .returns th1 ∧
      f th1 = if k = K then x else f th

/-- The values of the `case` clauses of the `switch` in `ReadFromTripleReqHeader`, in
source order: the header names the inbound bridge recognizes. -/
def TripleHeaderHandler.caseNames : List String :=
  [CanonicalMIMEHeaderKey TripleServiceVersion, CanonicalMIMEHeaderKey TripleServiceGroup,
   CanonicalMIMEHeaderKey TripleRequestID, CanonicalMIMEHeaderKey TripleTraceID,
   CanonicalMIMEHeaderKey TripleTraceID, CanonicalMIMEHeaderKey TripleTraceProtoBin,
   CanonicalMIMEHeaderKey TripleUnitInfo, CanonicalMIMEHeaderKey "content-type",
   CanonicalMIMEHeaderKey "authorization"]

/-- `TrailerKeyGrpcStatus`. -/
def TrailerKeyGrpcStatus : String := "grpc-status"

/-- `TrailerKeyGrpcMessage`. -/
def TrailerKeyGrpcMessage : String := "grpc-message"

/-- `TrailerKeyTraceProtoBin`. -/
def TrailerKeyTraceProtoBin : String := "trace-proto-bin"

/-- `http.Header.Set` of the Go library: the entry under the canonical form of `key` is
replaced by the single value. -/
def Header.Set (h : Header) (key value : String) : Header :=
  h.set (CanonicalMIMEHeaderKey key) [value]

/-- `http.Header.Get` of the Go library: the first value under the canonical form of
`key`, or the empty string. -/
def Header.Get (h : Header) (key : String) : String :=
  ((h.get (CanonicalMIMEHeaderKey key)).bind List.head?).getD ""

/-- `strconv.Itoa` of the Go library: the decimal digits, after a minus sign for a
negative number. -/
def strconv.Itoa (i : Int) : String :=
  if i < 0 then "-" ++ Nat.repr (-i).toNat else Nat.repr i.toNat

/-- `TripleHeaderHandler.WriteTripleFinalRspHeaderField`, on the header map `w.Header()`
of the response writer; the receiver and `traceProtoBin` are not used. -/
def TripleHeaderHandler.WriteTripleFinalRspHeaderField (w : Header) (grpcStatusCode : Int)
    (grpcMessage : String) (_traceProtoBin : Int) : Header :=
  let w := w.Set TrailerKeyGrpcStatus (strconv.Itoa grpcStatusCode)
  let w := w.Set TrailerKeyGrpcMessage grpcMessage
  w

/-- `baseProcessor.close`: `bp.quitOnce.Do(func() { close(bp.closeChain) })`. A `Once`
that has fired does nothing; otherwise it fires and the channel is closed, which panics
if the channel is closed already. -/
def baseProcessor.close {Msg : Type} (bp : baseProcessor Msg) : Res (baseProcessor Msg) :=
  if bp.quitOnce then .returns bp
  else if bp.closeChain then .panics (.runtimeError "close of closed channel")
  else .returns { bp with closeChain := true, quitOnce := true }

/-- The processor after `k` successive calls of `close()`, or the panic of one of them. -/
def baseProcessor.closeTimes {Msg : Type} (bp : baseProcessor Msg) :
    Nat → Res (baseProcessor Msg)
  | 0 => .returns bp
  | k + 1 => (bp.closeTimes k).andThen baseProcessor.close

/-! ## Options (`pkg/config/config.go`) -/

/-- A Go pointer: nil (`none`) or the value it points to. -/
abbrev Ptr (α : Type) := Option α

/-- The constants of `pkg/common` that `config.go` converts to its field types; the
package is not among the sources, so they are parameters: `uint32(common.DefaultTimeout)`,
`uint32(common.DefaultHttp2ControllerReadBufferSize)` and `common.PBSerializerName`. -/
structure CommonConstants where
  DefaultTimeout : Nat
  DefaultHttp2ControllerReadBufferSize : Nat
  PBSerializerName : String

/-- `config.Option`; every field starts at its zero value. -/
structure config.Option where
  Timeout : Nat := 0
  BufferSize : Nat := 0
  SerializerType : String := ""
deriving DecidableEq, Repr

/-- `Option.SetEmptyFieldDefaultConfig`: set empty field to default config. -/
def config.Option.SetEmptyFieldDefaultConfig (c : CommonConstants) (o : config.Option) :
    config.Option :=
  let o := if o.Timeout = 0 then { o with Timeout := c.DefaultTimeout } else o
  let o :=
    if o.BufferSize = 0 then { o with BufferSize := c.DefaultHttp2ControllerReadBufferSize }
    else o
  let o := if o.SerializerType = "" then { o with SerializerType := c.PBSerializerName } else o
  o

/-- `config.OptionFunction`, `func(o *Option) *Option`: the pointer it is given and the one
it returns may be nil, and it may panic. -/
abbrev config.OptionFunction := Ptr config.Option → Res (Ptr config.Option)

/-- `WithClientTimeout`. -/
def config.WithClientTimeout (timeout : Nat) : config.OptionFunction := fun o =>
  match o with
  | none => .panics (.runtimeError "invalid memory address or nil pointer dereference")
  | some o => .returns (some { o with Timeout := timeout })

/-- `WithBufferSize`. -/
def config.WithBufferSize (size : Nat) : config.OptionFunction := fun o =>
  match o with
  | none => .panics (.runtimeError "invalid memory address or nil pointer dereference")
  | some o => .returns (some { o with BufferSize := size })

/-- `WithSerializerType`. -/
def config.WithSerializerType (serializerType : String) : config.OptionFunction := fun o =>
  match o with
  | none => .panics (.runtimeError "invalid memory address or nil pointer dereference")
  | some o => .returns (some { o with SerializerType := serializerType })

/-- The loop of `NewTripleOption`: `opt = v(opt)` for each function in turn. -/
def config.applyOptions (opt : Ptr config.Option) :
    List config.OptionFunction → Res (Ptr config.Option)
  | [] => .returns opt
  | v :: rest =>
    match v opt with
    | .returns opt1 => config.applyOptions opt1 rest
    | .panics e => .panics e

/-- `NewTripleOption`: it starts from `&Option{}`. -/
def config.NewTripleOption (fs : List config.OptionFunction) : Res (Ptr config.Option) :=
  config.applyOptions (some {}) fs

/-- An option function built from one of the three constructors, by its argument. -/
inductive OptionArg where
  | clientTimeout (timeout : Nat)
  | bufferSize (size : Nat)
  | serializerType (name : String)
deriving DecidableEq, Repr

/-- The option function an argument stands for. -/
def OptionArg.fn : OptionArg → config.OptionFunction
  | .clientTimeout timeout => config.WithClientTimeout timeout
  | .bufferSize size => config.WithBufferSize size
  | .serializerType name => config.WithSerializerType name

/-- The argument when the option sets Timeout. -/
def OptionArg.timeout? : OptionArg → Option Nat
  | .clientTimeout timeout => some timeout
  | _ => none

/-- The argument when the option sets BufferSize. -/
def OptionArg.bufferSize? : OptionArg → Option Nat
  | .bufferSize size => some size
  | _ => none

/-- The argument when the option sets SerializerType. -/
def OptionArg.serializerType? : OptionArg → Option String
  | .serializerType name => some name
  | _ => none

/-! ## Path tools (`internal/tools/tools.go`) -/

/-- A Go `string`: its bytes. -/
abbrev GoString := List UInt8

/-- The bytes shown as text, one character per byte, for use in messages. -/
def GoString.text (s : GoString) : String :=
  String.mk (s.map fun b => Char.ofNat b.toNat)

/-- `strings.Split(s, sep)` of the Go library for a one-byte separator. -/
def strings.Split (s : GoString) (sep : UInt8) : List GoString :=
  match s with
  | [] => [[]]
  | c :: cs =>
    if c = sep then [] :: strings.Split cs sep
    else
      match strings.Split cs sep with
      | seg :: rest => (c :: seg) :: rest
      | [] => [[c]]

/-- `unicode.ToUpper` of the Go library on the code points below 256, the only ones a
conversion `string(b)` of a byte yields: a-z and the Latin-1 lower-case letters move to
their upper-case letters, every other code point is unchanged. -/
def unicode.ToUpper (r : Nat) : Nat :=
  if 97 ≤ r ∧ r ≤ 122 then r - 32
  else if r = 181 then 924
  else if (224 ≤ r ∧ r ≤ 246) ∨ (248 ≤ r ∧ r ≤ 254) then r - 32
  else if r = 255 then 376
  else r

/-- The UTF-8 encoding of a code point below 65536, as Go encodes a rune into a string. -/
def utf8Encode (r : Nat) : GoString :=
  if r < 128 then [UInt8.ofNat r]
  else if r < 2048 then [UInt8.ofNat (192 + r / 64), UInt8.ofNat (128 + r % 64)]
  else [UInt8.ofNat (224 + r / 4096), UInt8.ofNat (128 + r / 64 % 64),
        UInt8.ofNat (128 + r % 64)]

/-- The expression `strings.ToUpper(string(b))` for a byte `b`: the conversion `string(b)`
is the UTF-8 encoding of the code point `b`, which is then upper-cased. -/
def upperOfByte (b : UInt8) : GoString :=
  utf8Encode (unicode.ToUpper b.toNat)

/-- `GetServiceKeyAndUpperCaseMethodNameFromPath`: the two strings and the error (`none`
for nil). -/
def GetServiceKeyAndUpperCaseMethodNameFromPath (t : Texts) (path : GoString) :
    GoString × GoString × Option GoError :=
  let paramList := strings.Split path 47
  if paramList.length < 3 then
    ([], [], some (status.Errorf t codes.Internal "invalid triple header path = %s"
      [path.text]))
  else
    let methodName := paramList.getD 2 []
    match methodName with
    | [] =>
      ([], [], some (status.Errorf t codes.Internal "invalid method name = %s"
        [GoString.text []]))
    | b :: tail => (paramList.getD 1 [], upperOfByte b ++ tail, none)

/-- Texts used to instantiate the theorems at concrete inputs: a format is kept as it is
and its arguments are appended. -/
def plainTexts : Texts where
  Sprintf := fun format args => format ++ String.join args
  statusErrorText := fun st => "rpc error: " ++ st.message

/-- `TestDubbo3Serializer` of `pkg/common/protocol_test.go` over byte messages: `Marshal`
returns no bytes and no error, `Unmarshal` returns no error and leaves the value as it
is (empty). -/
def TestDubbo3Serializer : Dubbo3Serializer Bytes where
  Marshal := fun _ => .ok []
  Unmarshal := fun _ => .ok []

/-- A unary processor on a fresh stream with the length-prefixed codec and the test
serializer, for a given handler. -/
def testUnaryProcessor (handler : Except GoError Bytes → Res (Option Bytes × Option GoError)) :
    unaryProcessor Bytes :=
  { stream := newBaseStream, pkgHandler := lenCodec, serializer := TestDubbo3Serializer,
    methodDesc := ⟨handler⟩ }

/-- A serializer over byte messages whose `Unmarshal` always fails, while `Marshal` is the
identity. -/
def failingUnmarshalSerializer : Dubbo3Serializer Bytes where
  Marshal := fun m => .ok m
  Unmarshal := fun _ => .error (errors.New "cannot parse")

/-- The identity serializer over byte messages. -/
def idSerializer : Dubbo3Serializer Bytes where
  Marshal := fun m => .ok m
  Unmarshal := fun b => .ok b

/-- A streaming processor on a fresh stream with the length-prefixed codec and the test
serializer, for a given handler. -/
def testStreamingProcessor (handler : serverUserStream Bytes → HandlerRun) :
    streamingProcessor Bytes :=
  { stream := newBaseStream, pkgHandler := lenCodec, serializer := TestDubbo3Serializer,
    streamDesc := ⟨handler⟩ }

/-- A client-side header handler used to instantiate the theorems at concrete inputs: the
URL answers "1.0.0" for the version key, "g1" for the group key and the default for any
other key; the context holds a request id, a trace id, a non-string value under the
proto-bin key and a two-element credential pair. -/
def testHeaderHandler : TripleHeaderHandler where
  Url := ⟨fun key dflt =>
    if key = constant.APP_VERSION_KEY then "1.0.0"
    else if key = constant.GROUP_KEY then "g1" else dflt⟩
  Ctx := fun key =>
    if key = "tri-req-id" then some (.str "req-7")
    else if key = "tri-trace-traceid" then some (.str "trace-1")
    else if key = "tri-trace-proto-bin" then some .other
    else if key = "authorization" then some (.strs ["Basic", "c2VjcmV0"])
    else none


/-! ## Frame reassembly -/

theorem accBound_step (s s1 : baseStream) (c : SplitedCall) (hs : s.accBound)
    (hstep : s.putSplitedDataRecv c.splitedData c.msgType c.frameHandler = .returned s1) :
    s1.accBound := by
  unfold baseStream.putSplitedDataRecv at hstep
  split_ifs at hstep with hty
  · cases hstep; exact hs
  · split at hstep
    · cases hstep; exact hs
    · split_ifs at hstep with hgt heq
      · cases hstep; exact Or.inl ⟨rfl, rfl⟩
      · cases hstep; exact Or.inr (by omega)

theorem accBound_calls (calls : List SplitedCall) :
    ∀ s s1 : baseStream, s.accBound → s.putSplitedCalls calls = .returned s1 → s1.accBound := by
  induction calls with
  | nil =>
    intro s s1 hs hrun
    simp only [baseStream.putSplitedCalls] at hrun
    cases hrun; exact hs
  | cons c cs ih =>
    intro s s1 hs hrun
    simp only [baseStream.putSplitedCalls] at hrun
    split at hrun
    · next s2 hstep => exact ih s2 s1 (accBound_step s s2 c hs hstep) hrun
    · cases hrun

theorem flatten_take_length_lt (cs : List Bytes) (hne : ∀ c ∈ cs, c ≠ []) :
    ∀ k, k < cs.length → (cs.take k).flatten.length < cs.flatten.length := by
  induction cs with
  | nil => intro k hk; simp at hk
  | cons c cs ih =>
    intro k hk
    have hc : 0 < c.length := List.length_pos.mpr (hne c (List.mem_cons_self c cs))
    cases k with
    | zero => simp; omega
    | succ k =>
      have hk1 : k < cs.length := by simpa using hk
      have := ih (fun d hd => hne d (List.mem_cons_of_mem c hd)) k hk1
      simp only [List.take_succ_cons, List.flatten_cons, List.length_append]
      omega

theorem putSplitedDataRecv_partial (s : baseStream) (c : Bytes) (h : PackageHandler)
    (hsz : s.fromFrameHeaderDataSize ≠ 0)
    (hlt : (s.splitBuffer ++ c).length < s.fromFrameHeaderDataSize) :
    s.putSplitedDataRecv c DataMsgType h =
      .returned { s with splitBuffer := s.splitBuffer ++ c } := by
  have happ : s.appendSplited c h = some { s with splitBuffer := s.splitBuffer ++ c } := by
    simp [baseStream.appendSplited, hsz]
  have h1 : ¬ s.fromFrameHeaderDataSize < (s.splitBuffer ++ c).length := by omega
  have h2 : ¬ (s.splitBuffer ++ c).length = s.fromFrameHeaderDataSize := by omega
  simp only [baseStream.putSplitedDataRecv, happ, ne_eq, not_true_eq_false, if_false,
    gt_iff_lt, if_neg h1, if_neg h2]

theorem putSplitedDataRecv_complete (s : baseStream) (c : Bytes) (h : PackageHandler)
    (hsz : s.fromFrameHeaderDataSize ≠ 0)
    (heq : (s.splitBuffer ++ c).length = s.fromFrameHeaderDataSize) :
    s.putSplitedDataRecv c DataMsgType h =
      .returned { s with
        recvBuf := s.recvBuf ++
          [{ buffer := some (h.Pkg2FrameData (s.splitBuffer ++ c)), msgType := DataMsgType }],
        splitBuffer := [], fromFrameHeaderDataSize := 0 } := by
  have happ : s.appendSplited c h = some { s with splitBuffer := s.splitBuffer ++ c } := by
    simp [baseStream.appendSplited, hsz]
  have h1 : ¬ s.fromFrameHeaderDataSize < (s.splitBuffer ++ c).length := by omega
  simp only [baseStream.putSplitedDataRecv, happ, ne_eq, not_true_eq_false, if_false,
    gt_iff_lt, if_neg h1, if_pos heq, baseStream.putRecv]

theorem feed_partial (h : PackageHandler) (cs : List Bytes) :
    ∀ s : baseStream, s.fromFrameHeaderDataSize ≠ 0 →
      (s.splitBuffer ++ cs.flatten).length < s.fromFrameHeaderDataSize →
      s.feed h cs = .returned { s with splitBuffer := s.splitBuffer ++ cs.flatten } := by
  induction cs with
  | nil => intro s _ _; simp [baseStream.feed, baseStream.putSplitedCalls]
  | cons c cs ih =>
    intro s hsz hlt
    have hlt1 : (s.splitBuffer ++ c).length < s.fromFrameHeaderDataSize := by
      simp only [List.flatten_cons, List.length_append] at hlt ⊢
      omega
    have hstep := putSplitedDataRecv_partial s c h hsz hlt1
    have hrest := ih { s with splitBuffer := s.splitBuffer ++ c } hsz
      (by simpa [List.append_assoc] using hlt)
    simp only [baseStream.feed, List.map_cons, baseStream.putSplitedCalls, hstep]
    simpa [baseStream.feed, List.append_assoc] using hrest

theorem feed_complete (h : PackageHandler) (cs : List Bytes) :
    ∀ s : baseStream, s.fromFrameHeaderDataSize ≠ 0 → cs ≠ [] → (∀ c ∈ cs, c ≠ []) →
      (s.splitBuffer ++ cs.flatten).length = s.fromFrameHeaderDataSize →
      s.feed h cs = .returned { s with
        recvBuf := s.recvBuf ++
          [{ buffer := some (h.Pkg2FrameData (s.splitBuffer ++ cs.flatten)),
             msgType := DataMsgType }],
        splitBuffer := [], fromFrameHeaderDataSize := 0 } := by
  induction cs with
  | nil => intro s _ hne; exact absurd rfl hne
  | cons c cs ih =>
    intro s hsz _ hall heq
    by_cases hcs : cs = []
    · subst hcs
      have heq1 : (s.splitBuffer ++ c).length = s.fromFrameHeaderDataSize := by
        simpa using heq
      have hstep := putSplitedDataRecv_complete s c h hsz heq1
      simp [baseStream.feed, baseStream.putSplitedCalls, hstep]
    · have hpos : 0 < cs.flatten.length := by
        cases cs with
        | nil => exact absurd rfl hcs
        | cons d ds =>
          have hd : 0 < d.length :=
            List.length_pos.mpr (hall d (List.mem_cons_of_mem c (List.mem_cons_self d ds)))
          simp only [List.flatten_cons, List.length_append]
          omega
      have hlt1 : (s.splitBuffer ++ c).length < s.fromFrameHeaderDataSize := by
        simp only [List.flatten_cons, List.length_append] at heq ⊢
        omega
      have hstep := putSplitedDataRecv_partial s c h hsz hlt1
      have hrest := ih { s with splitBuffer := s.splitBuffer ++ c } hsz hcs
        (fun d hd => hall d (List.mem_cons_of_mem c hd))
        (by simpa [List.append_assoc] using heq)
      simp only [baseStream.feed, List.map_cons, baseStream.putSplitedCalls, hstep]
      simpa [baseStream.feed, List.append_assoc] using hrest

/-- C1 (reassembly correctness): let `payload` have at least one byte and let its framed
form `Pkg2FrameData payload` be a size header `hdr` followed by the payload. Cut the
framed form into non-empty chunks whose first chunk `hdr ++ p0` holds the whole header,
and let `Frame2PkgData` of that first chunk return its payload bytes `p0` and the full
payload length. Feeding the chunks in order to a fresh stream returns normally with
exactly one message on the receive queue, of type Data, whose bytes are
`Pkg2FrameData payload`; after any proper prefix of the chunks the queue is still empty,
so the message is put during the call for the last chunk. -/
theorem reassembly_correct (h : PackageHandler) (payload hdr p0 : Bytes)
    (chunks rest : List Bytes)
    (hlen : 1 ≤ payload.length)
    (hframe : h.Pkg2FrameData payload = hdr ++ payload)
    (hcut : chunks.flatten = h.Pkg2FrameData payload)
    (hne : ∀ c ∈ chunks, c ≠ [])
    (hfirst : chunks = (hdr ++ p0) :: rest)
    (hdec : h.Frame2PkgData (hdr ++ p0) = (p0, payload.length)) :
    newBaseStream.feed h chunks =
        .returned { newBaseStream with
          recvBuf := [{ buffer := some (h.Pkg2FrameData payload), msgType := DataMsgType }] } ∧
      ∀ k, k < chunks.length →
        ∃ s, newBaseStream.feed h (chunks.take k) = .returned s ∧ s.recvBuf = [] := by
  subst hfirst
  have hpay : p0 ++ rest.flatten = payload := by
    rw [hframe, List.flatten_cons, List.append_assoc] at hcut
    exact List.append_cancel_left hcut
  have hrest : ∀ c ∈ rest, c ≠ [] := fun c hc => hne c (List.mem_cons_of_mem _ hc)
  have hn0 : payload.length ≠ 0 := by omega
  have happ : newBaseStream.appendSplited (hdr ++ p0) h =
      some { newBaseStream with fromFrameHeaderDataSize := payload.length, splitBuffer := p0 } := by
    simp [baseStream.appendSplited, newBaseStream, hdec, hn0]
  have hplen : p0.length + rest.flatten.length = payload.length := by
    rw [← hpay, List.length_append]
  -- the first call when more chunks follow
  have hfirstStep : rest ≠ [] →
      newBaseStream.putSplitedDataRecv (hdr ++ p0) DataMsgType h =
        .returned { newBaseStream with
          fromFrameHeaderDataSize := payload.length, splitBuffer := p0 } := by
    intro hr
    have hpos : 0 < rest.flatten.length := by
      cases rest with
      | nil => exact absurd rfl hr
      | cons d ds =>
        have hd : 0 < d.length := List.length_pos.mpr (hrest d (List.mem_cons_self d ds))
        simp only [List.flatten_cons, List.length_append]
        omega
    have h1 : ¬ payload.length < p0.length := by omega
    have h2 : ¬ p0.length = payload.length := by omega
    simp only [baseStream.putSplitedDataRecv, happ, ne_eq, not_true_eq_false, if_false,
      gt_iff_lt, if_neg h1, if_neg h2]
  constructor
  · by_cases hr : rest = []
    · subst hr
      have hp : p0 = payload := by simpa using hpay
      have h1 : ¬ payload.length < p0.length := by omega
      have h2 : p0.length = payload.length := by rw [hp]
      simp only [baseStream.feed, List.map_cons, List.map_nil, baseStream.putSplitedCalls,
        baseStream.putSplitedDataRecv, happ, ne_eq, not_true_eq_false, if_false, gt_iff_lt,
        if_neg h1, if_pos h2, baseStream.putRecv]
      simp [newBaseStream, hp]
    · have hgo := feed_complete h rest
        { newBaseStream with fromFrameHeaderDataSize := payload.length, splitBuffer := p0 }
        hn0 hr hrest (by simpa [List.length_append] using hplen)
      simp only [baseStream.feed, List.map_cons, baseStream.putSplitedCalls, hfirstStep hr]
      simpa [baseStream.feed, newBaseStream, hpay] using hgo
  · intro k hk
    cases k with
    | zero => exact ⟨newBaseStream, by simp [baseStream.feed, baseStream.putSplitedCalls], rfl⟩
    | succ k =>
      have hk1 : k < rest.length := by simpa using hk
      have hr : rest ≠ [] := by
        intro hnil
        subst hnil
        simp at hk1
      have hlt := flatten_take_length_lt rest hrest k hk1
      have hgo := feed_partial h (rest.take k)
        { newBaseStream with fromFrameHeaderDataSize := payload.length, splitBuffer := p0 }
        hn0 (by simp only [List.length_append]; omega)
      refine ⟨{ newBaseStream with
        fromFrameHeaderDataSize := payload.length,
        splitBuffer := p0 ++ (rest.take k).flatten }, ?_, rfl⟩
      simp only [List.take_succ_cons, baseStream.feed, List.map_cons,
        baseStream.putSplitedCalls, hfirstStep hr]
      simpa [baseStream.feed] using hgo

/-- Witness of C1: the payload 7, 8, 9 behind a one-byte size header, cut into the
chunks (3, 7), (8), (9). -/
theorem reassembly_correct_witness :
    newBaseStream.feed lenCodec [[3, 7], [8], [9]] =
        .returned { newBaseStream with
          recvBuf := [{ buffer := some (lenCodec.Pkg2FrameData [7, 8, 9]),
                        msgType := DataMsgType }] } ∧
      ∀ k, k < [[(3 : UInt8), 7], [8], [9]].length →
        ∃ s, newBaseStream.feed lenCodec ([[3, 7], [8], [9]].take k) = .returned s ∧
          s.recvBuf = [] :=
  reassembly_correct lenCodec [7, 8, 9] [3] [7] [[3, 7], [8], [9]] [[8], [9]]
    (by decide) (by decide) (by decide) (by decide) (by decide) (by decide)

/-- C2 (oversize rejection): a Data chunk whose bytes, once appended, make the
accumulated length greater than the declared total size makes `putSplitedDataRecv` panic
with nothing put on the receive queue. With a size learned earlier (not 0) the chunk is
appended to the accumulator as it is; with no size learned the total and the payload
bytes are decoded from this chunk by `Frame2PkgData`, and the payload is appended when
the decoded total is not 0 (a chunk declaring 0 is discarded before the append, C4). -/
theorem putSplitedDataRecv_oversize (s : baseStream) (chunk : Bytes) (h : PackageHandler) :
    (s.fromFrameHeaderDataSize ≠ 0 →
      s.fromFrameHeaderDataSize < (s.splitBuffer ++ chunk).length →
      s.putSplitedDataRecv chunk DataMsgType h =
          .panicked { s with splitBuffer := s.splitBuffer ++ chunk }
            "Receive Splited Data is bigger than wanted!!!" ∧
        (s.putSplitedDataRecv chunk DataMsgType h).stream.recvBuf = s.recvBuf) ∧
    (s.fromFrameHeaderDataSize = 0 → (h.Frame2PkgData chunk).2 ≠ 0 →
      (h.Frame2PkgData chunk).2 < (h.Frame2PkgData chunk).1.length →
      s.putSplitedDataRecv chunk DataMsgType h =
          .panicked { s with
              fromFrameHeaderDataSize := (h.Frame2PkgData chunk).2,
              splitBuffer := (h.Frame2PkgData chunk).1 }
            "Receive Splited Data is bigger than wanted!!!" ∧
        (s.putSplitedDataRecv chunk DataMsgType h).stream.recvBuf = s.recvBuf) := by
  constructor
  · intro hsz hgt
    have hrun : s.putSplitedDataRecv chunk DataMsgType h =
        .panicked { s with splitBuffer := s.splitBuffer ++ chunk }
          "Receive Splited Data is bigger than wanted!!!" := by
      simp only [baseStream.putSplitedDataRecv, baseStream.appendSplited, ne_eq,
        not_true_eq_false, if_false, if_neg hsz, gt_iff_lt, if_pos hgt]
    rw [hrun]
    exact ⟨rfl, rfl⟩
  · intro hsz htot hgt
    have hrun : s.putSplitedDataRecv chunk DataMsgType h =
        .panicked { s with
            fromFrameHeaderDataSize := (h.Frame2PkgData chunk).2,
            splitBuffer := (h.Frame2PkgData chunk).1 }
          "Receive Splited Data is bigger than wanted!!!" := by
      simp only [baseStream.putSplitedDataRecv, baseStream.appendSplited, ne_eq,
        not_true_eq_false, if_false, if_pos hsz, if_neg htot, gt_iff_lt, List.nil_append,
        if_pos hgt]
    rw [hrun]
    exact ⟨rfl, rfl⟩

/-- Witness of C2: a stream that awaits two bytes and holds one receives a chunk of two
bytes; and a fresh stream receives a frame that declares one byte and carries two. -/
theorem putSplitedDataRecv_oversize_witness :
    (({ newBaseStream with fromFrameHeaderDataSize := 2, splitBuffer := [7] } :
        baseStream).putSplitedDataRecv [8, 9] DataMsgType lenCodec =
        .panicked { newBaseStream with fromFrameHeaderDataSize := 2, splitBuffer := [7, 8, 9] }
          "Receive Splited Data is bigger than wanted!!!" ∧
      (({ newBaseStream with fromFrameHeaderDataSize := 2, splitBuffer := [7] } :
        baseStream).putSplitedDataRecv [8, 9] DataMsgType lenCodec).stream.recvBuf = []) ∧
    (newBaseStream.putSplitedDataRecv [1, 7, 8] DataMsgType lenCodec =
        .panicked { newBaseStream with fromFrameHeaderDataSize := 1, splitBuffer := [7, 8] }
          "Receive Splited Data is bigger than wanted!!!" ∧
      (newBaseStream.putSplitedDataRecv [1, 7, 8] DataMsgType lenCodec).stream.recvBuf = []) :=
  ⟨(putSplitedDataRecv_oversize
      { newBaseStream with fromFrameHeaderDataSize := 2, splitBuffer := [7] } [8, 9]
      lenCodec).1 (by decide) (by decide),
   (putSplitedDataRecv_oversize newBaseStream [1, 7, 8] lenCodec).2 rfl (by decide)
      (by decide)⟩

/-- C3 (reset on completion): a Data chunk whose bytes, once appended, make the
accumulated length equal to the declared total size (learned earlier, or decoded from
this chunk and not 0) makes `putSplitedDataRecv` return having put exactly one more
message on the receive queue, of type Data and framed from the accumulated bytes, with
the accumulator empty and the learned size 0, as in a freshly created stream, and
nothing else changed. On the stream so left the next Data chunk is parsed as a new
message header: what the next call does is decided by `Frame2PkgData` of that chunk
alone (discard on total 0, panic, delivery, or a new accumulation of the decoded
payload under the decoded total). -/
theorem putSplitedDataRecv_completion (s : baseStream) (chunk acc next : Bytes)
    (h h2 : PackageHandler) :
    (s.fromFrameHeaderDataSize ≠ 0 →
      (s.splitBuffer ++ chunk).length = s.fromFrameHeaderDataSize →
      s.putSplitedDataRecv chunk DataMsgType h =
        .returned { s with
          recvBuf := s.recvBuf ++
            [{ buffer := some (h.Pkg2FrameData (s.splitBuffer ++ chunk)),
               msgType := DataMsgType }],
          splitBuffer := [], fromFrameHeaderDataSize := 0 }) ∧
    (s.fromFrameHeaderDataSize = 0 → (h.Frame2PkgData chunk).2 ≠ 0 →
      (h.Frame2PkgData chunk).1.length = (h.Frame2PkgData chunk).2 →
      s.putSplitedDataRecv chunk DataMsgType h =
        .returned { s with
          recvBuf := s.recvBuf ++
            [{ buffer := some (h.Pkg2FrameData (h.Frame2PkgData chunk).1),
               msgType := DataMsgType }],
          splitBuffer := [], fromFrameHeaderDataSize := 0 }) ∧
    (newBaseStream.splitBuffer = [] ∧ newBaseStream.fromFrameHeaderDataSize = 0) ∧
    ({ s with
        recvBuf := s.recvBuf ++
          [{ buffer := some (h.Pkg2FrameData acc), msgType := DataMsgType }],
        splitBuffer := [], fromFrameHeaderDataSize := 0 } :
      baseStream).putSplitedDataRecv next DataMsgType h2 =
      (if (h2.Frame2PkgData next).2 = 0 then
        .returned { s with
          recvBuf := s.recvBuf ++
            [{ buffer := some (h.Pkg2FrameData acc), msgType := DataMsgType }],
          splitBuffer := [], fromFrameHeaderDataSize := 0 }
      else if (h2.Frame2PkgData next).2 < (h2.Frame2PkgData next).1.length then
        .panicked { s with
            recvBuf := s.recvBuf ++
              [{ buffer := some (h.Pkg2FrameData acc), msgType := DataMsgType }],
            splitBuffer := (h2.Frame2PkgData next).1,
            fromFrameHeaderDataSize := (h2.Frame2PkgData next).2 }
          "Receive Splited Data is bigger than wanted!!!"
      else if (h2.Frame2PkgData next).1.length = (h2.Frame2PkgData next).2 then
        .returned { s with
          recvBuf := (s.recvBuf ++
            [{ buffer := some (h.Pkg2FrameData acc), msgType := DataMsgType }]) ++
            [{ buffer := some (h2.Pkg2FrameData (h2.Frame2PkgData next).1),
               msgType := DataMsgType }],
          splitBuffer := [], fromFrameHeaderDataSize := 0 }
      else
        .returned { s with
          recvBuf := s.recvBuf ++
            [{ buffer := some (h.Pkg2FrameData acc), msgType := DataMsgType }],
          splitBuffer := (h2.Frame2PkgData next).1,
          fromFrameHeaderDataSize := (h2.Frame2PkgData next).2 }) := by
  refine ⟨?_, ?_, ⟨rfl, rfl⟩, ?_⟩
  · intro hsz heq
    exact putSplitedDataRecv_complete s chunk h hsz heq
  · intro hsz htot heq
    have hle : ¬ (h.Frame2PkgData chunk).2 < (h.Frame2PkgData chunk).1.length := by
      omega
    simp only [baseStream.putSplitedDataRecv, baseStream.appendSplited, ne_eq,
      not_true_eq_false, if_false, if_pos hsz, if_neg htot, gt_iff_lt, List.nil_append,
      if_neg hle, if_pos heq, baseStream.putRecv]
  · by_cases ht : (h2.Frame2PkgData next).2 = 0
    · simp only [baseStream.putSplitedDataRecv, baseStream.appendSplited, ne_eq,
        not_true_eq_false, if_false, if_true, if_pos ht]
    · by_cases hgt : (h2.Frame2PkgData next).2 < (h2.Frame2PkgData next).1.length
      · simp only [baseStream.putSplitedDataRecv, baseStream.appendSplited, ne_eq,
          not_true_eq_false, if_false, if_true, if_neg ht, List.nil_append, gt_iff_lt,
          if_pos hgt]
      · by_cases heq : (h2.Frame2PkgData next).1.length = (h2.Frame2PkgData next).2
        · simp only [baseStream.putSplitedDataRecv, baseStream.appendSplited, ne_eq,
            not_true_eq_false, if_false, if_true, if_neg ht, List.nil_append, gt_iff_lt,
            if_neg hgt, if_pos heq, baseStream.putRecv]
        · simp only [baseStream.putSplitedDataRecv, baseStream.appendSplited, ne_eq,
            not_true_eq_false, if_false, if_true, if_neg ht, List.nil_append, gt_iff_lt,
            if_neg hgt, if_neg heq]

/-- Witness of C3: two bytes are awaited, one is held, the chunk brings the second; and a
fresh stream receives a whole frame of two bytes. -/
theorem putSplitedDataRecv_completion_witness :
    ({ newBaseStream with fromFrameHeaderDataSize := 2, splitBuffer := [7] } :
        baseStream).putSplitedDataRecv [8] DataMsgType lenCodec =
        .returned { newBaseStream with
          recvBuf := [{ buffer := some (lenCodec.Pkg2FrameData [7, 8]),
                        msgType := DataMsgType }] } ∧
      newBaseStream.putSplitedDataRecv [2, 7, 8] DataMsgType lenCodec =
        .returned { newBaseStream with
          recvBuf := [{ buffer := some (lenCodec.Pkg2FrameData [7, 8]),
                        msgType := DataMsgType }] } :=
  ⟨(putSplitedDataRecv_completion
      { newBaseStream with fromFrameHeaderDataSize := 2, splitBuffer := [7] } [8] [] []
      lenCodec lenCodec).1 (by decide) (by decide),
   (putSplitedDataRecv_completion newBaseStream [2, 7, 8] [] [] lenCodec lenCodec).2.1 rfl
      (by decide) (by decide)⟩

/-- C4 (zero-size discard): on a stream whose learned size is 0, a Data chunk for which
`Frame2PkgData` reports total size 0 makes `putSplitedDataRecv` return with the stream
exactly as it was: nothing is put on the receive queue, the accumulator contents and
the learned size are unchanged. -/
theorem putSplitedDataRecv_zero_size (s : baseStream) (chunk : Bytes) (h : PackageHandler)
    (hsz : s.fromFrameHeaderDataSize = 0)
    (htot : (h.Frame2PkgData chunk).2 = 0) :
    s.putSplitedDataRecv chunk DataMsgType h = .returned s ∧
      (s.putSplitedDataRecv chunk DataMsgType h).stream.recvBuf = s.recvBuf ∧
      (s.putSplitedDataRecv chunk DataMsgType h).stream.splitBuffer = s.splitBuffer ∧
      (s.putSplitedDataRecv chunk DataMsgType h).stream.fromFrameHeaderDataSize =
        s.fromFrameHeaderDataSize := by
  have hrun : s.putSplitedDataRecv chunk DataMsgType h = .returned s := by
    simp [baseStream.putSplitedDataRecv, baseStream.appendSplited, hsz, htot]
  rw [hrun]
  exact ⟨rfl, rfl, rfl, rfl⟩

/-- Witness of C4: the codec of the repository's tests always reports total size 0; the
stream here holds stale accumulator bytes, which the call leaves in place. -/
theorem putSplitedDataRecv_zero_size_witness :
    ({ newBaseStream with splitBuffer := [5] } : baseStream).putSplitedDataRecv [1, 2]
        DataMsgType TestTriplePackageHandler =
        .returned { newBaseStream with splitBuffer := [5] } ∧
      (({ newBaseStream with splitBuffer := [5] } : baseStream).putSplitedDataRecv [1, 2]
        DataMsgType TestTriplePackageHandler).stream.recvBuf = newBaseStream.recvBuf ∧
      (({ newBaseStream with splitBuffer := [5] } : baseStream).putSplitedDataRecv [1, 2]
        DataMsgType TestTriplePackageHandler).stream.splitBuffer = [5] ∧
      (({ newBaseStream with splitBuffer := [5] } : baseStream).putSplitedDataRecv [1, 2]
        DataMsgType TestTriplePackageHandler).stream.fromFrameHeaderDataSize = 0 :=
  putSplitedDataRecv_zero_size { newBaseStream with splitBuffer := [5] } [1, 2]
    TestTriplePackageHandler (by decide) (by decide)

/-- C5 (accumulator bound invariant): whatever sequence of `putSplitedDataRecv` calls,
with any message types, chunks and codecs, has returned normally on a freshly created
stream, the stream it leaves either has learned size 0 and an empty accumulator, or holds
strictly fewer accumulated bytes than the learned size. -/
theorem accumulator_bound (calls : List SplitedCall) (s : baseStream)
    (hrun : newBaseStream.putSplitedCalls calls = .returned s) :
    (s.fromFrameHeaderDataSize = 0 ∧ s.splitBuffer = []) ∨
      s.splitBuffer.length < s.fromFrameHeaderDataSize :=
  accBound_calls calls newBaseStream s (Or.inl ⟨rfl, rfl⟩) hrun

/-- Witness of C5: a close-type call, a header announcing three bytes with one of them,
and one more byte; two of three bytes are then held. -/
theorem accumulator_bound_witness :
    (({ newBaseStream with fromFrameHeaderDataSize := 3, splitBuffer := [7, 8] } :
        baseStream).fromFrameHeaderDataSize = 0 ∧
      ({ newBaseStream with fromFrameHeaderDataSize := 3, splitBuffer := [7, 8] } :
        baseStream).splitBuffer = []) ∨
      ({ newBaseStream with fromFrameHeaderDataSize := 3, splitBuffer := [7, 8] } :
        baseStream).splitBuffer.length <
      ({ newBaseStream with fromFrameHeaderDataSize := 3, splitBuffer := [7, 8] } :
        baseStream).fromFrameHeaderDataSize :=
  accumulator_bound
    [⟨[9], ServerStreamCloseMsgType, lenCodec⟩, ⟨[3, 7], DataMsgType, lenCodec⟩,
      ⟨[8], DataMsgType, TestTriplePackageHandler⟩]
    { newBaseStream with fromFrameHeaderDataSize := 3, splitBuffer := [7, 8] } (by decide)

/-! ## Stream state machine -/

theorem onRecvEsTimes_closed (k : Nat) :
    newBaseStream.onRecvEsTimes (k + 2) =
      { newBaseStream with state := streamState.closed } := by
  induction k with
  | zero => decide
  | succ k ih =>
    show (newBaseStream.onRecvEsTimes (k + 2)).onRecvEs.1 = _
    rw [ih]
    decide

/-- C6 (state monotonicity): on a freshly created stream, whose state is `open`, the
first `onRecvEs` sets and returns `halfClose`, the second sets and returns `closed`, and
after any number `k + 2` of calls one more `onRecvEs` leaves the stream `closed` and
returns `closed`. -/
theorem onRecvEs_sequence (k : Nat) :
    newBaseStream.state = streamState.open ∧
      newBaseStream.onRecvEs =
        ({ newBaseStream with state := streamState.halfClose }, streamState.halfClose) ∧
      newBaseStream.onRecvEs.1.onRecvEs =
        ({ newBaseStream with state := streamState.closed }, streamState.closed) ∧
      (newBaseStream.onRecvEsTimes (k + 2)).state = streamState.closed ∧
      (newBaseStream.onRecvEsTimes (k + 2)).onRecvEs =
        (newBaseStream.onRecvEsTimes (k + 2), streamState.closed) := by
  refine ⟨rfl, by decide, by decide, ?_, ?_⟩
  · rw [onRecvEsTimes_closed]
  · rw [onRecvEsTimes_closed]
    decide

/-- Counterexample to C7 as stated: `setState(open)` on a closed stream moves the
lifecycle back to `open`, so the state afterwards is earlier than the state before and
a closed stream does not stay closed. -/
theorem setState_moves_backwards :
    ({ newBaseStream with state := streamState.closed } : baseStream).state =
        streamState.closed ∧
      (({ newBaseStream with state := streamState.closed } : baseStream).setState
        streamState.open).state = streamState.open ∧
      ¬ (({ newBaseStream with state := streamState.closed } : baseStream).state ≤
        (({ newBaseStream with state := streamState.closed } : baseStream).setState
          streamState.open).state) := by
  decide

/-- C7 (forward-only lifecycle, amended): `onRecvEs` never moves the lifecycle backwards
(the state afterwards, which is also the state it returns, is not earlier than the state
before, in the order open < halfClose < closed) and a closed stream stays closed under
`onRecvEs`; `setState(ss)` stores exactly `ss`, so it is forward-only precisely when `ss`
is not earlier than the current state. -/
theorem lifecycle_forward_only (s : baseStream) (ss : streamState) :
    s.state ≤ s.onRecvEs.1.state ∧
      s.onRecvEs.2 = s.onRecvEs.1.state ∧
      ({ s with state := streamState.closed } : baseStream).onRecvEs =
        ({ s with state := streamState.closed }, streamState.closed) ∧
      (s.setState ss).state = ss ∧
      (s.state ≤ (s.setState ss).state ↔ s.state ≤ ss) := by
  refine ⟨?_, rfl, ?_, rfl, Iff.rfl⟩
  · simp only [baseStream.onRecvEs, streamState.open, streamState.halfClose,
      streamState.closed]
    split_ifs with h0 h1
    · show s.state ≤ 1
      rw [h0]
      exact Nat.zero_le 1
    · show s.state ≤ 2
      rw [h1]
      exact Nat.le_succ 1
    · exact le_refl _
  · simp [baseStream.onRecvEs, streamState.open, streamState.halfClose, streamState.closed]

/-! ## Unary processor -/

theorem handleRPCErr_writes_one_status {Msg : Type} (t : Texts) (s : baseProcessor Msg)
    (err : GoError) :
    ∃ st, s.handleRPCErr t err =
      { s.stream with
        sendBuf := s.stream.sendBuf ++ [{ st := some st, msgType := ServerStreamCloseMsgType }] } := by
  cases err with
  | statusError st0 => exact ⟨st0, rfl⟩
  | plain msg => exact ⟨status.New codes.Unknown (t.Sprintf msg []), rfl⟩

/-- A panic whose value is a string is contained: the task writes one status with code
Unknown and nothing escapes. -/
theorem runRPC_string_panic_contained {Msg : Type} (t : Texts) (s : unaryProcessor Msg)
    (recvMsg : BufferMsg) (text : String)
    (hp : s.recvCase t recvMsg = .panics (.str text)) :
    s.runRPC t (.recv recvMsg) =
      ⟨{ s.stream with
          sendBuf := s.stream.sendBuf ++
            [{ st := some ⟨codes.Unknown, t.Sprintf text []⟩,
               msgType := ServerStreamCloseMsgType }] }, none⟩ := by
  simp only [unaryProcessor.runRPC, hp, unaryProcessor.recovered]
  rfl

/-- C8 (fault containment) fails on the code at this input: a request is received and the
handler returns a nil reply with a nil error, so `reply.(proto.Message)` raises a runtime
error; the deferred function recovers it, its own `e.(string)` panics, no status is
written to the stream and a panic leaves the task. -/
theorem runRPC_runtime_error_escapes :
    (testUnaryProcessor fun _ => .returns (none, none)).runRPC plainTexts
        (.recv { buffer := some [1, 7], msgType := DataMsgType }) =
      ⟨newBaseStream,
        some (.runtimeError "interface conversion: interface is not string")⟩ := by
  decide

/-- C9 (single terminal status): on each exit path of the task started by
`unaryProcessor.runRPC` that is not a fault (cancelled before receive; received message
carrying an error; error returned by the pipeline; success) the task ends without a
panic and appends to the send queue exactly one close-type message; on the first three
paths that is all it appends (no Data message), on success it appends one Data message
with the response bytes (none for a nil slice) followed by the close-type message with
code OK. -/
theorem unary_single_terminal_status {Msg : Type} (t : Texts) (s : unaryProcessor Msg) :
    (∃ st, s.runRPC t .closeSignal =
      ⟨{ s.stream with
          sendBuf := s.stream.sendBuf ++
            [{ st := some st, msgType := ServerStreamCloseMsgType }] }, none⟩) ∧
    (∀ recvMsg e, recvMsg.err = some e →
      ∃ st, s.runRPC t (.recv recvMsg) =
        ⟨{ s.stream with
            sendBuf := s.stream.sendBuf ++
              [{ st := some st, msgType := ServerStreamCloseMsgType }] }, none⟩) ∧
    (∀ recvMsg buf rsp e, recvMsg.err = none → recvMsg.buffer = some buf →
      s.processUnaryRPC t buf = .returns (rsp, some e) →
      ∃ st, s.runRPC t (.recv recvMsg) =
        ⟨{ s.stream with
            sendBuf := s.stream.sendBuf ++
              [{ st := some st, msgType := ServerStreamCloseMsgType }] }, none⟩) ∧
    (∀ recvMsg buf rsp, recvMsg.err = none → recvMsg.buffer = some buf →
      s.processUnaryRPC t buf = .returns (rsp, none) →
      s.runRPC t (.recv recvMsg) =
        ⟨{ s.stream with
            sendBuf := s.stream.sendBuf ++
              [{ buffer := some (rsp.getD []), msgType := DataMsgType },
               { st := some ⟨codes.OK, ""⟩, msgType := ServerStreamCloseMsgType }] },
          none⟩) := by
  refine ⟨?_, ?_, ?_, ?_⟩
  · obtain ⟨st, hst⟩ := handleRPCErr_writes_one_status t s.tobaseProcessor
      (status.Errorf t codes.Canceled "processor has been canceled!" [])
    exact ⟨st, by simp only [unaryProcessor.runRPC, hst]⟩
  · intro recvMsg e he
    obtain ⟨st, hst⟩ := handleRPCErr_writes_one_status t s.tobaseProcessor
      (status.Errorf t codes.Internal "error ,s.processUnaryRPC err = %s" [e.Error t])
    exact ⟨st, by simp only [unaryProcessor.runRPC, unaryProcessor.recvCase, he, hst]⟩
  · intro recvMsg buf rsp e he hb hp
    obtain ⟨st, hst⟩ := handleRPCErr_writes_one_status t s.tobaseProcessor e
    exact ⟨st, by simp only [unaryProcessor.runRPC, unaryProcessor.recvCase, he, hb, hp, hst]⟩
  · intro recvMsg buf rsp he hb hp
    simp only [unaryProcessor.runRPC, unaryProcessor.recvCase, he, hb, hp,
      baseProcessor.handleRPCSuccess, baseStream.PutSend, baseStream.putSend,
      baseStream.WriteCloseMsgTypeWithStatus, baseStream.WriteStatus, status.New,
      List.append_assoc, List.singleton_append]

/-- Witness of C9 on the success path: the handler replies, the test serializer marshals
the reply to no bytes, the codec frames them behind the size header 0. -/
theorem unary_single_terminal_status_witness :
    (testUnaryProcessor fun _ => .returns (some [1], none)).runRPC plainTexts
        (.recv { buffer := some [1, 7], msgType := DataMsgType }) =
      ⟨{ newBaseStream with
          sendBuf := newBaseStream.sendBuf ++
            [{ buffer := some [0], msgType := DataMsgType },
             { st := some ⟨codes.OK, ""⟩, msgType := ServerStreamCloseMsgType }] }, none⟩ :=
  (unary_single_terminal_status plainTexts
      (testUnaryProcessor fun _ => .returns (some [1], none))).2.2.2
    { buffer := some [1, 7], msgType := DataMsgType } [1, 7] (some [0]) rfl rfl (by decide)

/-- C10 (cancel before receive): when the close signal fires, the task appends to the send
queue exactly one close-type message, whose status has code Canceled, appends no Data
message and ends without a panic; the outcome is the same whatever the codec, the
serializer and the handler of the processor are, none of them being invoked. -/
theorem runRPC_cancel_before_receive {Msg : Type} (t : Texts) (s : unaryProcessor Msg)
    (pkgHandler1 : PackageHandler) (serializer1 : Dubbo3Serializer Msg)
    (methodDesc1 : MethodDesc Msg) :
    s.runRPC t .closeSignal =
        ⟨{ s.stream with
            sendBuf := s.stream.sendBuf ++
              [{ st := some ⟨codes.Canceled, t.Sprintf "processor has been canceled!" []⟩,
                 msgType := ServerStreamCloseMsgType }] }, none⟩ ∧
      ({ s with pkgHandler := pkgHandler1, serializer := serializer1,
                methodDesc := methodDesc1 } : unaryProcessor Msg).runRPC t .closeSignal =
        s.runRPC t .closeSignal :=
  ⟨rfl, rfl⟩

/-- Counterexample to C11 as stated: the request cannot be unmarshalled, the handler
ignores the error `dec` reports and replies; `processUnaryRPC` returns the framed reply
and no error. -/
theorem processUnaryRPC_unmarshal_failure_not_fatal :
    failingUnmarshalSerializer.Unmarshal (lenCodec.Frame2PkgData [1, 7]).1 =
        .error (errors.New "cannot parse") ∧
      ({ stream := newBaseStream, pkgHandler := lenCodec,
         serializer := failingUnmarshalSerializer,
         methodDesc := ⟨fun _ => .returns (some [9], none)⟩ } :
        unaryProcessor Bytes).processUnaryRPC plainTexts [1, 7] =
        .returns (some (lenCodec.Pkg2FrameData [9]), none) :=
  ⟨rfl, by decide⟩

/-- C11 (unary pipeline result, amended): with `dec` the result handed to the handler
(the unmarshalled request, or the unmarshal failure wrapped as an Internal status error),
`processUnaryRPC` returns (`Pkg2FrameData(Marshal(reply))`, no error) exactly when the
handler returns `reply` without error and `Marshal(reply)` succeeds; it returns (no
bytes, a status error with code Internal) when the handler returns an error or the reply
cannot be marshalled, and only then; whenever it returns, it returns either bytes and no
error or no bytes and an error. -/
theorem processUnaryRPC_result {Msg : Type} (t : Texts) (p : unaryProcessor Msg)
    (buf : Bytes) :
    (∀ x, p.serializer.Unmarshal (p.pkgHandler.Frame2PkgData buf).1 = .ok x →
      p.descFunc t (p.pkgHandler.Frame2PkgData buf).1 = .ok x) ∧
    (∀ e, p.serializer.Unmarshal (p.pkgHandler.Frame2PkgData buf).1 = .error e →
      ∃ msg, p.descFunc t (p.pkgHandler.Frame2PkgData buf).1 =
        .error (.statusError ⟨codes.Internal, msg⟩)) ∧
    (∀ data, p.processUnaryRPC t buf = .returns (some data, none) ↔
      ∃ reply replyData,
        p.methodDesc.Handler (p.descFunc t (p.pkgHandler.Frame2PkgData buf).1) =
          .returns (some reply, none) ∧
        p.serializer.Marshal reply = .ok replyData ∧
        data = p.pkgHandler.Pkg2FrameData replyData) ∧
    ((∃ e, p.processUnaryRPC t buf = .returns (none, some e)) ↔
      ((∃ r he, p.methodDesc.Handler (p.descFunc t (p.pkgHandler.Frame2PkgData buf).1) =
          .returns (r, some he)) ∨
       (∃ reply me,
          p.methodDesc.Handler (p.descFunc t (p.pkgHandler.Frame2PkgData buf).1) =
            .returns (some reply, none) ∧
          p.serializer.Marshal reply = .error me))) ∧
    (∀ e, p.processUnaryRPC t buf = .returns (none, some e) →
      ∃ msg, e = .statusError ⟨codes.Internal, msg⟩) ∧
    (∀ b e, p.processUnaryRPC t buf = .returns (b, e) →
      (b.isSome ∧ e = none) ∨ (b = none ∧ e.isSome)) := by
  refine ⟨?_, ?_, ?_, ?_, ?_, ?_⟩
  · intro x hx
    simp only [unaryProcessor.descFunc, hx]
  · intro e he
    refine ⟨t.Sprintf "Unary rpc request unmarshal error: %s" [e.Error t], ?_⟩
    simp only [unaryProcessor.descFunc, he]
    rfl
  · intro data
    simp only [unaryProcessor.processUnaryRPC]
    constructor
    · intro h
      split at h
      · cases h
      · cases h
      · next reply hh =>
        split at h
        · cases h
        · next m =>
          split at h
          · cases h
          · next replyData hm =>
            cases h
            exact ⟨m, replyData, hh, hm, rfl⟩
    · rintro ⟨reply, replyData, hh, hm, rfl⟩
      simp only [hh, hm]
  · simp only [unaryProcessor.processUnaryRPC]
    constructor
    · rintro ⟨e, h⟩
      split at h
      · cases h
      · next r he hh => exact Or.inl ⟨r, he, hh⟩
      · next reply hh =>
        split at h
        · cases h
        · next m =>
          split at h
          · next me hm => exact Or.inr ⟨m, me, hh, hm⟩
          · cases h
    · rintro (⟨r, he, hh⟩ | ⟨reply, me, hh, hm⟩)
      · refine ⟨status.Errorf t codes.Internal "Unary rpc handle error: %s" [he.Error t], ?_⟩
        simp only [hh]
      · refine ⟨status.Errorf t codes.Internal "Unary rpc reoly marshal error: %s"
          [me.Error t], ?_⟩
        simp only [hh, hm]
  · intro e h
    simp only [unaryProcessor.processUnaryRPC] at h
    split at h
    · cases h
    · cases h
      exact ⟨_, rfl⟩
    · split at h
      · cases h
      · split at h
        · cases h
          exact ⟨_, rfl⟩
        · cases h
  · intro b e h
    simp only [unaryProcessor.processUnaryRPC] at h
    split at h
    · cases h
    · cases h
      exact Or.inr ⟨rfl, rfl⟩
    · split at h
      · cases h
      · split at h
        · cases h
          exact Or.inr ⟨rfl, rfl⟩
        · cases h
          exact Or.inl ⟨rfl, rfl⟩

/-- Witness of C11: the handler returns an error; `processUnaryRPC` returns no bytes and
a status error with code Internal. -/
theorem processUnaryRPC_result_witness :
    ∃ msg, status.Errorf plainTexts codes.Internal "Unary rpc handle error: %s" ["boom"] =
      .statusError ⟨codes.Internal, msg⟩ :=
  (processUnaryRPC_result plainTexts
      (testUnaryProcessor fun _ => .returns (none, some (errors.New "boom"))) [1, 7]).2.2.2.2.1
    (status.Errorf plainTexts codes.Internal "Unary rpc handle error: %s" ["boom"])
    (by decide)

/-! ## Streaming processor -/

/-- Counterexample to C12 as stated: the handler returns normally without sending
anything; after it the streaming processor puts two messages on the send queue, a Data
message with no bytes and then the status OK, so it does write a Data message of its
own and the Data messages on the queue are not only those of the handler. -/
theorem streaming_runRPC_writes_data :
    (testStreamingProcessor fun us => .returned us.stream none).runRPC =
        ⟨{ newBaseStream with
            sendBuf :=
              [{ buffer := some [], msgType := DataMsgType },
               { st := some ⟨codes.OK, ""⟩, msgType := ServerStreamCloseMsgType }] },
          none⟩ ∧
      (testStreamingProcessor fun us => .returned us.stream none).runRPC.stream.sendBuf ≠
        [{ st := some ⟨codes.OK, ""⟩, msgType := ServerStreamCloseMsgType }] := by
  decide

/-- C12 (streaming processor bracket, amended): for every streaming call whose handler
returns (with or without an error), the streaming processor then appends to the send
queue exactly two messages of its own, one Data message with no bytes followed by one
close-type message whose status has code OK, and the task ends without a panic; what the
handler left on the queues is kept in front of them. -/
theorem streaming_runRPC_bracket {Msg : Type} (sp : streamingProcessor Msg) (s1 : baseStream)
    (err : Option GoError)
    (hrun : sp.streamDesc.Handler (newServerUserStream sp.stream sp.serializer sp.pkgHandler) =
      .returned s1 err) :
    sp.runRPC =
      ⟨{ s1 with
          sendBuf := s1.sendBuf ++
            [{ buffer := some [], msgType := DataMsgType },
             { st := some ⟨codes.OK, ""⟩, msgType := ServerStreamCloseMsgType }] }, none⟩ := by
  simp only [streamingProcessor.runRPC, hrun, baseProcessor.handleRPCSuccess,
    baseStream.PutSend, baseStream.putSend, baseStream.WriteCloseMsgTypeWithStatus,
    baseStream.WriteStatus, status.New, List.append_assoc, List.singleton_append]

/-- Witness of C12: the handler sends one message through the wrapper and returns. -/
theorem streaming_runRPC_bracket_witness :
    (testStreamingProcessor fun us => .returned (us.SendMsg [5]).1 none).runRPC =
      ⟨{ ({ newBaseStream with
              sendBuf := [{ buffer := some [0], msgType := DataMsgType }] } : baseStream) with
          sendBuf := [{ buffer := some [0], msgType := DataMsgType }] ++
            [{ buffer := some [], msgType := DataMsgType },
             { st := some ⟨codes.OK, ""⟩, msgType := ServerStreamCloseMsgType }] }, none⟩ :=
  streaming_runRPC_bracket
    (testStreamingProcessor fun us => .returned (us.SendMsg [5]).1 none)
    { newBaseStream with sendBuf := [{ buffer := some [0], msgType := DataMsgType }] }
    none (by decide)

/-! ## User stream -/

/-- C15 (SendMsg contract): if `Marshal(m)` fails, `SendMsg` returns that same error and
leaves the stream, hence the send queue, as it was; if it succeeds, `SendMsg` returns
nil and appends to the send queue exactly one message, of type Data, whose bytes are
`Pkg2FrameData(Marshal(m))`. -/
theorem sendMsg_contract {Msg : Type} (ss : baseUserStream Msg) (m : Msg) :
    (∀ err, ss.serilizer.Marshal m = .error err → ss.SendMsg m = (ss.stream, some err)) ∧
    (∀ data, ss.serilizer.Marshal m = .ok data →
      ss.SendMsg m =
        ({ ss.stream with
            sendBuf := ss.stream.sendBuf ++
              [{ buffer := some (ss.pkgHandler.Pkg2FrameData data), msgType := DataMsgType }] },
          none)) := by
  constructor
  · intro err h
    simp only [baseUserStream.SendMsg, h]
  · intro data h
    simp only [baseUserStream.SendMsg, h, baseStream.putSend]

/-- Witness of C15 on the success path. -/
theorem sendMsg_contract_witness :
    (⟨newBaseStream, idSerializer, lenCodec⟩ : baseUserStream Bytes).SendMsg [7, 8] =
      ({ newBaseStream with
          sendBuf := newBaseStream.sendBuf ++
            [{ buffer := some (lenCodec.Pkg2FrameData [7, 8]), msgType := DataMsgType }] },
        none) :=
  (sendMsg_contract (⟨newBaseStream, idSerializer, lenCodec⟩ : baseUserStream Bytes)
    [7, 8]).2 [7, 8] rfl

/-- C14 (RecvMsg closure and failure): with at least one message on the receive queue,
`RecvMsg` takes exactly the first one off the queue; if that message carries no payload
buffer it returns the error "user stream closed!", whatever the codec and the serializer
are (neither is called); otherwise it returns exactly what
`Unmarshal(Frame2PkgData(message bytes), value)` returns. -/
theorem recvMsg_contract {Msg : Type} (ss : baseUserStream Msg) (readBuf : BufferMsg)
    (rest : List BufferMsg) (hq : ss.stream.recvBuf = readBuf :: rest) :
    (readBuf.buffer = none →
      ∀ (serilizer1 : Dubbo3Serializer Msg) (pkgHandler1 : PackageHandler),
        (⟨ss.stream, serilizer1, pkgHandler1⟩ : baseUserStream Msg).RecvMsg =
          some ({ ss.stream with recvBuf := rest },
            .error (errors.New "user stream closed!"))) ∧
    (∀ b, readBuf.buffer = some b →
      ss.RecvMsg =
        some ({ ss.stream with recvBuf := rest },
          ss.serilizer.Unmarshal (ss.pkgHandler.Frame2PkgData b).1)) := by
  constructor
  · intro hb serilizer1 pkgHandler1
    simp only [baseUserStream.RecvMsg, hq, hb]
  · intro b hb
    simp only [baseUserStream.RecvMsg, hq, hb]
    cases hu : ss.serilizer.Unmarshal (ss.pkgHandler.Frame2PkgData b).1 <;> rfl

/-- Witness of C14: a close-type message, which carries no buffer, is first on the
queue. -/
theorem recvMsg_contract_witness :
    (⟨{ newBaseStream with
          recvBuf := [{ st := some ⟨codes.OK, ""⟩, msgType := ServerStreamCloseMsgType }] },
        idSerializer, TestTriplePackageHandler⟩ : baseUserStream Bytes).RecvMsg =
      some ({ ({ newBaseStream with
                recvBuf := [{ st := some ⟨codes.OK, ""⟩,
                              msgType := ServerStreamCloseMsgType }] } : baseStream) with
              recvBuf := [] },
        .error (errors.New "user stream closed!")) :=
  (recvMsg_contract
    (⟨{ newBaseStream with
          recvBuf := [{ st := some ⟨codes.OK, ""⟩, msgType := ServerStreamCloseMsgType }] },
        idSerializer, lenCodec⟩ : baseUserStream Bytes)
    { st := some ⟨codes.OK, ""⟩, msgType := ServerStreamCloseMsgType } [] rfl).1 rfl
    idSerializer TestTriplePackageHandler

/-- C13 (SendMsg/RecvMsg round trip): let the serializer satisfy
`Unmarshal(Marshal(x)) = x` and the codec return the payload `b` from
`Frame2PkgData(Pkg2FrameData(b))`. If `SendMsg(v)` succeeds on the stream `a`, pushing
the message `msg` to its send queue, and `msg` is the next message of the paired stream
`b`'s receive queue, then `RecvMsg` on `b` takes that message, returns no error and
yields `v`. -/
theorem sendMsg_recvMsg_round_trip {Msg : Type} (serilizer : Dubbo3Serializer Msg)
    (pkgHandler : PackageHandler) (a b : baseStream) (v : Msg) (msg : BufferMsg)
    (rest : List BufferMsg)
    (hser : ∀ x bs, serilizer.Marshal x = .ok bs → serilizer.Unmarshal bs = .ok x)
    (hcodec : ∀ bs, (pkgHandler.Frame2PkgData (pkgHandler.Pkg2FrameData bs)).1 = bs)
    (hsend : ((⟨a, serilizer, pkgHandler⟩ : baseUserStream Msg).SendMsg v).2 = none)
    (hpushed : ((⟨a, serilizer, pkgHandler⟩ : baseUserStream Msg).SendMsg v).1.sendBuf =
      a.sendBuf ++ [msg])
    (hdeliv : b.recvBuf = msg :: rest) :
    (⟨b, serilizer, pkgHandler⟩ : baseUserStream Msg).RecvMsg =
      some ({ b with recvBuf := rest }, .ok v) := by
  cases hm : serilizer.Marshal v with
  | error err =>
    simp [baseUserStream.SendMsg, hm] at hsend
  | ok data =>
    simp only [baseUserStream.SendMsg, hm, baseStream.putSend] at hpushed
    have hmsg : msg = { buffer := some (pkgHandler.Pkg2FrameData data),
                        msgType := DataMsgType } := by
      have := List.append_cancel_left hpushed
      simpa using this.symm
    subst hmsg
    simp only [baseUserStream.RecvMsg, hdeliv, hcodec, hser v data hm]

/-- Witness of C13 with the identity serializer and the length-prefixed codec. -/
theorem sendMsg_recvMsg_round_trip_witness :
    (⟨{ newBaseStream with
          recvBuf := [{ buffer := some [2, 7, 8], msgType := DataMsgType }] },
        idSerializer, lenCodec⟩ : baseUserStream Bytes).RecvMsg =
      some ({ ({ newBaseStream with
                recvBuf := [{ buffer := some [2, 7, 8], msgType := DataMsgType }] } :
                baseStream) with recvBuf := [] }, .ok [7, 8]) :=
  sendMsg_recvMsg_round_trip idSerializer lenCodec newBaseStream
    { newBaseStream with recvBuf := [{ buffer := some [2, 7, 8], msgType := DataMsgType }] }
    [7, 8] { buffer := some [2, 7, 8], msgType := DataMsgType } []
    (by intro x bs h; cases h; rfl)
    (by intro bs; rfl)
    rfl (by decide) rfl

/-! ## Header bridge -/

theorem Header.get_set (h : Header) (k k1 : String) (v : List String) :
    (h.set k v).get k1 = if k = k1 then some v else h.get k1 := by
  induction h with
  | nil => simp [Header.set, Header.get]
  | cons e rest ih =>
    obtain ⟨k0, v0⟩ := e
    by_cases h0 : k0 = k
    · subst h0
      simp only [Header.set, Header.get, if_true]
      split_ifs <;> rfl
    · by_cases h1 : k0 = k1
      · subst h1
        have h2 : ¬ k = k0 := fun h => h0 h.symm
        simp [Header.set, Header.get, h0, h2]
      · simp [Header.set, Header.get, h0, h1, ih]

theorem Header.get_eq_none (h : Header) (K : String) (hK : K ∉ h.map Prod.fst) :
    h.get K = none := by
  induction h with
  | nil => rfl
  | cons e rest ih =>
    obtain ⟨k0, v0⟩ := e
    simp only [List.map_cons, List.mem_cons, not_or] at hK
    have h0 : ¬ k0 = K := fun h => hK.1 h.symm
    simp [Header.get, h0, ih hK.2]

theorem canonical_TripleServiceVersion :
    CanonicalMIMEHeaderKey TripleServiceVersion = "Tri-Service-Version" := by decide

theorem canonical_TripleServiceGroup :
    CanonicalMIMEHeaderKey TripleServiceGroup = "Tri-Service-Group" := by decide

theorem canonical_TripleRequestID :
    CanonicalMIMEHeaderKey TripleRequestID = "Tri-Req-Id" := by decide

theorem canonical_TripleTraceID :
    CanonicalMIMEHeaderKey TripleTraceID = "Tri-Trace-Traceid" := by decide

theorem canonical_TripleTraceProtoBin :
    CanonicalMIMEHeaderKey TripleTraceProtoBin = "Tri-Trace-Proto-Bin" := by decide

theorem canonical_TripleUnitInfo :
    CanonicalMIMEHeaderKey TripleUnitInfo = "Tri-Unit-Info" := by decide

theorem canonical_content_type :
    CanonicalMIMEHeaderKey "content-type" = "Content-Type" := by decide

theorem canonical_authorization :
    CanonicalMIMEHeaderKey "authorization" = "Authorization" := by decide

theorem readEntry_eq (th : TripleHeader) (k x : String) (xs : List String) :
    TripleHeaderHandler.readEntry th k (x :: xs) =
      if k = "Tri-Service-Version" then .returns { th with ServiceVersion := x }
      else if k = "Tri-Service-Group" then .returns { th with ServiceGroup := x }
      else if k = "Tri-Req-Id" then .returns { th with RPCID := x }
      else if k = "Tri-Trace-Traceid" then .returns { th with TracingID := x }
      else if k = "Tri-Trace-Traceid" then .returns { th with TracingRPCID := x }
      else if k = "Tri-Trace-Proto-Bin" then .returns { th with TracingContext := x }
      else if k = "Tri-Unit-Info" then .returns { th with ClusterInfo := x }
      else if k = "Content-Type" then .returns { th with ContentType := x }
      else if k = "Authorization" then .returns { th with ContentType := x }
      else .returns th := by
  unfold TripleHeaderHandler.readEntry
  rw [canonical_TripleServiceVersion, canonical_TripleServiceGroup,
    canonical_TripleRequestID, canonical_TripleTraceID, canonical_TripleTraceProtoBin,
    canonical_TripleUnitInfo, canonical_content_type, canonical_authorization]
  rfl

theorem ite_returns_field {c : Prop} [Decidable c] (f : TripleHeader → String) (v : String)
    (a b : Res TripleHeader)
    (ha : ∃ th1, a = .returns th1 ∧ f th1 = v) (hb : ∃ th1, b = .returns th1 ∧ f th1 = v) :
    ∃ th1, (if c then a else b) = .returns th1 ∧ f th1 = v := by
  by_cases hc : c
  · rw [if_pos hc]; exact ha
  · rw [if_neg hc]; exact hb

theorem readsField_ServiceVersion :
    TripleHeaderHandler.ReadsField (fun th => th.ServiceVersion) "Tri-Service-Version" := by
  intro th k x xs
  rw [readEntry_eq]
  by_cases hk : k = "Tri-Service-Version"
  · subst hk
    exact ⟨_, rfl, (if_pos rfl).symm⟩
  · rw [if_neg hk, if_neg hk]
    repeat (first
      | exact ⟨_, rfl, rfl⟩
      | refine ite_returns_field (fun th => th.ServiceVersion) _ _ _ ⟨_, rfl, rfl⟩ ?_)

theorem readsField_ServiceGroup :
    TripleHeaderHandler.ReadsField (fun th => th.ServiceGroup) "Tri-Service-Group" := by
  intro th k x xs
  rw [readEntry_eq]
  by_cases hk : k = "Tri-Service-Group"
  · subst hk
    exact ⟨_, rfl, (if_pos rfl).symm⟩
  · rw [if_neg hk, if_neg hk]
    repeat (first
      | exact ⟨_, rfl, rfl⟩
      | refine ite_returns_field (fun th => th.ServiceGroup) _ _ _ ⟨_, rfl, rfl⟩ ?_)

theorem readsField_RPCID :
    TripleHeaderHandler.ReadsField (fun th => th.RPCID) "Tri-Req-Id" := by
  intro th k x xs
  rw [readEntry_eq]
  by_cases hk : k = "Tri-Req-Id"
  · subst hk
    exact ⟨_, rfl, (if_pos rfl).symm⟩
  · rw [if_neg hk, if_neg hk]
    repeat (first
      | exact ⟨_, rfl, rfl⟩
      | refine ite_returns_field (fun th => th.RPCID) _ _ _ ⟨_, rfl, rfl⟩ ?_)

theorem readsField_TracingID :
    TripleHeaderHandler.ReadsField (fun th => th.TracingID) "Tri-Trace-Traceid" := by
  intro th k x xs
  rw [readEntry_eq]
  by_cases hk : k = "Tri-Trace-Traceid"
  · subst hk
    exact ⟨_, rfl, (if_pos rfl).symm⟩
  · rw [if_neg hk, if_neg hk, if_neg hk]
    repeat (first
      | exact ⟨_, rfl, rfl⟩
      | refine ite_returns_field (fun th => th.TracingID) _ _ _ ⟨_, rfl, rfl⟩ ?_)

theorem readsField_TracingContext :
    TripleHeaderHandler.ReadsField (fun th => th.TracingContext) "Tri-Trace-Proto-Bin" := by
  intro th k x xs
  rw [readEntry_eq]
  by_cases hk : k = "Tri-Trace-Proto-Bin"
  · subst hk
    exact ⟨_, rfl, (if_pos rfl).symm⟩
  · rw [if_neg hk, if_neg hk]
    repeat (first
      | exact ⟨_, rfl, rfl⟩
      | refine ite_returns_field (fun th => th.TracingContext) _ _ _ ⟨_, rfl, rfl⟩ ?_)

theorem readsField_ClusterInfo :
    TripleHeaderHandler.ReadsField (fun th => th.ClusterInfo) "Tri-Unit-Info" := by
  intro th k x xs
  rw [readEntry_eq]
  by_cases hk : k = "Tri-Unit-Info"
  · subst hk
    exact ⟨_, rfl, (if_pos rfl).symm⟩
  · rw [if_neg hk, if_neg hk]
    repeat (first
      | exact ⟨_, rfl, rfl⟩
      | refine ite_returns_field (fun th => th.ClusterInfo) _ _ _ ⟨_, rfl, rfl⟩ ?_)

theorem readEntries_field (f : TripleHeader → String) (K : String)
    (hf : TripleHeaderHandler.ReadsField f K) :
    ∀ (h : Header) (th : TripleHeader), (h.map Prod.fst).Nodup → (∀ e ∈ h, e.2 ≠ []) →
      ∃ th1, TripleHeaderHandler.readEntries th h = .returns th1 ∧
        f th1 = ((h.get K).bind List.head?).getD (f th) := by
  intro h
  induction h with
  | nil => intro th _ _; exact ⟨th, rfl, rfl⟩
  | cons e rest ih =>
    intro th hnd hne
    obtain ⟨k, v⟩ := e
    have hv : v ≠ [] := hne (k, v) (List.mem_cons_self _ _)
    obtain ⟨x, xs, rfl⟩ := List.exists_cons_of_ne_nil hv
    obtain ⟨th1, h1, hf1⟩ := hf th k x xs
    rw [List.map_cons, List.nodup_cons] at hnd
    obtain ⟨th2, h2, hf2⟩ := ih th1 hnd.2 (fun e he => hne e (List.mem_cons_of_mem _ he))
    refine ⟨th2, ?_, ?_⟩
    · simp only [TripleHeaderHandler.readEntries, h1, h2]
    · rw [hf2, hf1]
      by_cases hk : k = K
      · subst hk
        rw [Header.get_eq_none rest k hnd.1]
        simp [Header.get]
      · simp [Header.get, hk]

theorem Header.mem_keys_of_get (h : Header) (K : String) (v : List String)
    (hg : h.get K = some v) : K ∈ h.map Prod.fst := by
  by_contra hK
  rw [Header.get_eq_none h K hK] at hg
  cases hg

theorem canonicalizeNames_get (h : Header)
    (hnd : ((canonicalizeNames h).map Prod.fst).Nodup) (k : String) (vs : List String)
    (hg : h.get k = some vs) :
    (canonicalizeNames h).get (CanonicalMIMEHeaderKey k) = some vs := by
  induction h with
  | nil => cases hg
  | cons e rest ih =>
    obtain ⟨k0, v0⟩ := e
    simp only [canonicalizeNames, List.map_cons, List.nodup_cons] at hnd
    by_cases h0 : k0 = k
    · subst h0
      simp only [Header.get, if_true] at hg
      simp only [canonicalizeNames, List.map_cons, Header.get, if_true, hg]
    · simp only [Header.get, if_neg h0] at hg
      have hrest := ih hnd.2 hg
      have hmem := Header.mem_keys_of_get _ _ _ hrest
      have hne : ¬ CanonicalMIMEHeaderKey k0 = CanonicalMIMEHeaderKey k := by
        intro heq
        apply hnd.1
        rw [heq]
        exact hmem
      simp only [canonicalizeNames, List.map_cons, Header.get, if_neg hne]
      exact hrest

theorem writeFixedFields_get_other (t : TripleHeaderHandler) (header : Header) (key : String)
    (h0 : "user-agent" ≠ key) (h1 : TripleServiceVersion ≠ key)
    (h2 : TripleServiceGroup ≠ key) (h3 : TripleRequestID ≠ key) (h4 : TripleTraceID ≠ key)
    (h5 : TripleTraceRPCID ≠ key) (h6 : TripleTraceProtoBin ≠ key)
    (h7 : TripleUnitInfo ≠ key) :
    (t.writeFixedFields header).get key = header.get key := by
  simp only [TripleHeaderHandler.writeFixedFields, Header.get_set, if_neg h0, if_neg h1,
    if_neg h2, if_neg h3, if_neg h4, if_neg h5, if_neg h6, if_neg h7]

theorem WriteTripleReqHeaderField_get (t : TripleHeaderHandler) (header : Header)
    (key : String) (hkey : "authorization" ≠ key) :
    (t.WriteTripleReqHeaderField header).get key = (t.writeFixedFields header).get key := by
  unfold TripleHeaderHandler.WriteTripleReqHeaderField
  split
  · split_ifs
    · rfl
    · rw [Header.get_set, if_neg hkey]
  · rfl

theorem writeReqHeader_values (t : TripleHeaderHandler) (header : Header) :
    (t.WriteTripleReqHeaderField header).get "user-agent" = some ["grpc-go/1.35.0-dev"] ∧
    (t.WriteTripleReqHeaderField header).get "tri-service-version" =
      some [t.Url.GetParam constant.APP_VERSION_KEY ""] ∧
    (t.WriteTripleReqHeaderField header).get "tri-service-group" =
      some [t.Url.GetParam constant.GROUP_KEY ""] ∧
    (t.WriteTripleReqHeaderField header).get "tri-req-id" =
      some [getCtxVaSave t.Ctx "tri-req-id"] ∧
    (t.WriteTripleReqHeaderField header).get "tri-trace-traceid" =
      some [getCtxVaSave t.Ctx "tri-trace-traceid"] ∧
    (t.WriteTripleReqHeaderField header).get "tri-trace-rpcid" =
      some [getCtxVaSave t.Ctx "tri-trace-rpcid"] ∧
    (t.WriteTripleReqHeaderField header).get "tri-trace-proto-bin" =
      some [getCtxVaSave t.Ctx "tri-trace-proto-bin"] ∧
    (t.WriteTripleReqHeaderField header).get "tri-unit-info" =
      some [getCtxVaSave t.Ctx "tri-unit-info"] := by
  refine ⟨?_, ?_, ?_, ?_, ?_, ?_, ?_, ?_⟩ <;>
    (rw [WriteTripleReqHeaderField_get t header _ (by decide)]
     simp [TripleHeaderHandler.writeFixedFields, Header.get_set, TripleServiceVersion,
       TripleServiceGroup, TripleRequestID, TripleTraceID, TripleTraceRPCID,
       TripleTraceProtoBin, TripleUnitInfo, TripleUserAgent])

/-- C17 (outbound fixed field set): the map returned by `WriteTripleReqHeaderField` holds
under each of the eight fixed keys exactly one value: the user agent, the two URL
parameters, and for the five context-sourced keys the result of `getCtxVaSave`, which is
the context's value when that is a string and the empty string when the context has no
value for the key or a value of another type. -/
theorem writeReqHeader_fixed_fields (t : TripleHeaderHandler) (header : Header)
    (ctx : Context) (field : String) :
    (t.WriteTripleReqHeaderField header).get "user-agent" = some ["grpc-go/1.35.0-dev"] ∧
    (t.WriteTripleReqHeaderField header).get "tri-service-version" =
      some [t.Url.GetParam constant.APP_VERSION_KEY ""] ∧
    (t.WriteTripleReqHeaderField header).get "tri-service-group" =
      some [t.Url.GetParam constant.GROUP_KEY ""] ∧
    (t.WriteTripleReqHeaderField header).get "tri-req-id" =
      some [getCtxVaSave t.Ctx "tri-req-id"] ∧
    (t.WriteTripleReqHeaderField header).get "tri-trace-traceid" =
      some [getCtxVaSave t.Ctx "tri-trace-traceid"] ∧
    (t.WriteTripleReqHeaderField header).get "tri-trace-rpcid" =
      some [getCtxVaSave t.Ctx "tri-trace-rpcid"] ∧
    (t.WriteTripleReqHeaderField header).get "tri-trace-proto-bin" =
      some [getCtxVaSave t.Ctx "tri-trace-proto-bin"] ∧
    (t.WriteTripleReqHeaderField header).get "tri-unit-info" =
      some [getCtxVaSave t.Ctx "tri-unit-info"] ∧
    getCtxVaSave ctx field =
      (match ctx field with
       | some (.str val) => val
       | some (.strs _) => ""
       | some .other => ""
       | none => "") := by
  obtain ⟨w1, w2, w3, w4, w5, w6, w7, w8⟩ := writeReqHeader_values t header
  refine ⟨w1, w2, w3, w4, w5, w6, w7, w8, ?_⟩
  unfold getCtxVaSave
  cases ctx field with
  | none => rfl
  | some v => cases v <;> rfl

/-- C18 (outbound credentials): when the context's "authorization" value is a string
slice of exactly two elements, the returned map holds exactly that pair under
"authorization"; in every other case (no value, a value of another type, a slice of any
other length) the "authorization" entry of the returned map is the one of the input
map. -/
theorem writeReqHeader_authorization (t : TripleHeaderHandler) (header : Header) :
    (∀ a b, t.Ctx "authorization" = some (.strs [a, b]) →
      (t.WriteTripleReqHeaderField header).get "authorization" = some [a, b]) ∧
    ((∀ a b, t.Ctx "authorization" ≠ some (.strs [a, b])) →
      (t.WriteTripleReqHeaderField header).get "authorization" =
        header.get "authorization") := by
  have hfixed : (t.writeFixedFields header).get "authorization" =
      header.get "authorization" :=
    writeFixedFields_get_other t header "authorization" (by decide) (by decide) (by decide)
      (by decide) (by decide) (by decide) (by decide) (by decide)
  constructor
  · intro a b hab
    simp only [TripleHeaderHandler.WriteTripleReqHeaderField, hab, List.length_cons,
      List.length_nil, ne_eq, not_true_eq_false, if_false, Header.get_set, if_true]
  · intro hno
    unfold TripleHeaderHandler.WriteTripleReqHeaderField
    split
    · next v hv =>
      split_ifs with hlen
      · exact hfixed
      · exfalso
        have h2 : v.length = 2 := by
          by_contra hne
          exact hlen hne
        match v, h2 with
        | [a, b], _ => exact hno a b hv
    · exact hfixed

/-- Witness of C18: the context holds a two-element pair, which replaces the entry of the
input map. -/
theorem writeReqHeader_authorization_witness :
    (testHeaderHandler.WriteTripleReqHeaderField [("authorization", ["old"])]).get
        "authorization" = some ["Basic", "c2VjcmV0"] :=
  (writeReqHeader_authorization testHeaderHandler [("authorization", ["old"])]).1
    "Basic" "c2VjcmV0" rfl

/-- C16 (header round trip): let the request `r` be a delivery of the header map produced
by `WriteTripleReqHeaderField`: its header is a map (distinct names), every entry has at
least one value, and under the canonical form of every name written it holds the values
written. Then `ReadFromTripleReqHeader` returns a `TripleHeader` whose ServiceVersion,
ServiceGroup, RPCID, TracingID, TracingContext and ClusterInfo are the values written
under tri-service-version, tri-service-group, tri-req-id, tri-trace-traceid,
tri-trace-proto-bin and tri-unit-info, in whatever order the entries are visited. -/
theorem header_round_trip (t : TripleHeaderHandler) (header : Header) (r : Request)
    (hkeys : (r.Header.map Prod.fst).Nodup)
    (hvals : ∀ e ∈ r.Header, e.2 ≠ [])
    (hdel : ∀ k vs, (t.WriteTripleReqHeaderField header).get k = some vs →
      r.Header.get (CanonicalMIMEHeaderKey k) = some vs) :
    ∃ th, TripleHeaderHandler.ReadFromTripleReqHeader r = .returns th ∧
      (t.WriteTripleReqHeaderField header).get "tri-service-version" =
        some [th.ServiceVersion] ∧
      (t.WriteTripleReqHeaderField header).get "tri-service-group" =
        some [th.ServiceGroup] ∧
      (t.WriteTripleReqHeaderField header).get "tri-req-id" = some [th.RPCID] ∧
      (t.WriteTripleReqHeaderField header).get "tri-trace-traceid" = some [th.TracingID] ∧
      (t.WriteTripleReqHeaderField header).get "tri-trace-proto-bin" =
        some [th.TracingContext] ∧
      (t.WriteTripleReqHeaderField header).get "tri-unit-info" = some [th.ClusterInfo] := by
  obtain ⟨w1, w2, w3, w4, w5, _, w7, w8⟩ := writeReqHeader_values t header
  have d2 := hdel _ _ w2
  have d3 := hdel _ _ w3
  have d4 := hdel _ _ w4
  have d5 := hdel _ _ w5
  have d7 := hdel _ _ w7
  have d8 := hdel _ _ w8
  rw [show CanonicalMIMEHeaderKey "tri-service-version" = "Tri-Service-Version" from
    canonical_TripleServiceVersion] at d2
  rw [show CanonicalMIMEHeaderKey "tri-service-group" = "Tri-Service-Group" from
    canonical_TripleServiceGroup] at d3
  rw [show CanonicalMIMEHeaderKey "tri-req-id" = "Tri-Req-Id" from
    canonical_TripleRequestID] at d4
  rw [show CanonicalMIMEHeaderKey "tri-trace-traceid" = "Tri-Trace-Traceid" from
    canonical_TripleTraceID] at d5
  rw [show CanonicalMIMEHeaderKey "tri-trace-proto-bin" = "Tri-Trace-Proto-Bin" from
    canonical_TripleTraceProtoBin] at d7
  rw [show CanonicalMIMEHeaderKey "tri-unit-info" = "Tri-Unit-Info" from
    canonical_TripleUnitInfo] at d8
  obtain ⟨th, hth, f2⟩ := readEntries_field _ _ readsField_ServiceVersion r.Header
    { Path := r.URLPath } hkeys hvals
  obtain ⟨th3, hth3, f3⟩ := readEntries_field _ _ readsField_ServiceGroup r.Header
    { Path := r.URLPath } hkeys hvals
  obtain ⟨th4, hth4, f4⟩ := readEntries_field _ _ readsField_RPCID r.Header
    { Path := r.URLPath } hkeys hvals
  obtain ⟨th5, hth5, f5⟩ := readEntries_field _ _ readsField_TracingID r.Header
    { Path := r.URLPath } hkeys hvals
  obtain ⟨th7, hth7, f7⟩ := readEntries_field _ _ readsField_TracingContext r.Header
    { Path := r.URLPath } hkeys hvals
  obtain ⟨th8, hth8, f8⟩ := readEntries_field _ _ readsField_ClusterInfo r.Header
    { Path := r.URLPath } hkeys hvals
  have e3 : th3 = th := by rw [hth] at hth3; cases hth3; rfl
  have e4 : th4 = th := by rw [hth] at hth4; cases hth4; rfl
  have e5 : th5 = th := by rw [hth] at hth5; cases hth5; rfl
  have e7 : th7 = th := by rw [hth] at hth7; cases hth7; rfl
  have e8 : th8 = th := by rw [hth] at hth8; cases hth8; rfl
  rw [d2] at f2
  rw [d3, e3] at f3
  rw [d4, e4] at f4
  rw [d5, e5] at f5
  rw [d7, e7] at f7
  rw [d8, e8] at f8
  refine ⟨th, hth, ?_, ?_, ?_, ?_, ?_, ?_⟩
  · rw [w2]; exact congrArg (fun x => some [x]) f2.symm
  · rw [w3]; exact congrArg (fun x => some [x]) f3.symm
  · rw [w4]; exact congrArg (fun x => some [x]) f4.symm
  · rw [w5]; exact congrArg (fun x => some [x]) f5.symm
  · rw [w7]; exact congrArg (fun x => some [x]) f7.symm
  · rw [w8]; exact congrArg (fun x => some [x]) f8.symm

/-- Witness of C16: the header map written from an empty map, delivered with canonical
names. -/
theorem header_round_trip_witness :
    ∃ th, TripleHeaderHandler.ReadFromTripleReqHeader
        ⟨canonicalizeNames (testHeaderHandler.WriteTripleReqHeaderField []), "/svc/Method"⟩ =
          .returns th ∧
      (testHeaderHandler.WriteTripleReqHeaderField []).get "tri-service-version" =
        some [th.ServiceVersion] ∧
      (testHeaderHandler.WriteTripleReqHeaderField []).get "tri-service-group" =
        some [th.ServiceGroup] ∧
      (testHeaderHandler.WriteTripleReqHeaderField []).get "tri-req-id" = some [th.RPCID] ∧
      (testHeaderHandler.WriteTripleReqHeaderField []).get "tri-trace-traceid" =
        some [th.TracingID] ∧
      (testHeaderHandler.WriteTripleReqHeaderField []).get "tri-trace-proto-bin" =
        some [th.TracingContext] ∧
      (testHeaderHandler.WriteTripleReqHeaderField []).get "tri-unit-info" =
        some [th.ClusterInfo] :=
  header_round_trip testHeaderHandler []
    ⟨canonicalizeNames (testHeaderHandler.WriteTripleReqHeaderField []), "/svc/Method"⟩
    (by decide) (by decide)
    (fun k vs h => canonicalizeNames_get _ (by decide) k vs h)

/-- C19 (credential round trip) fails on the code at this input: the outbound bridge
writes the two-element credential pair of the context, the map is delivered with
canonical names, and `ReadFromTripleReqHeader` returns a `TripleHeader` whose
Authorization is empty (its ContentType holds the first element of the pair instead), so
`FieldToCtx` exposes an empty slice under "authorization". -/
theorem read_authorization_not_recovered :
    (testHeaderHandler.WriteTripleReqHeaderField []).get "authorization" =
        some ["Basic", "c2VjcmV0"] ∧
      TripleHeaderHandler.ReadFromTripleReqHeader
        ⟨canonicalizeNames (testHeaderHandler.WriteTripleReqHeaderField []), "/svc/Method"⟩ =
        .returns { Path := "/svc/Method", ContentType := "Basic", ServiceVersion := "1.0.0",
                   ServiceGroup := "g1", RPCID := "req-7", TracingID := "trace-1",
                   Authorization := [] } ∧
      ({ Path := "/svc/Method", ContentType := "Basic", ServiceVersion := "1.0.0",
         ServiceGroup := "g1", RPCID := "req-7", TracingID := "trace-1",
         Authorization := [] } : TripleHeader).FieldToCtx "authorization" =
        some (.strs []) := by
  decide

/-- C20 (inbound content type) fails on the code at this input: a request carries
Content-Type and Authorization; when the Authorization entry is visited after the
Content-Type entry, ContentType is the first Authorization value, not the first
Content-Type value, and the same request visited in the other order gives another
result. -/
theorem read_content_type_overwritten :
    TripleHeaderHandler.ReadFromTripleReqHeader
        ⟨[("Content-Type", ["application/grpc"]), ("Authorization", ["Basic", "c2VjcmV0"])],
          "/svc/Method"⟩ =
        .returns { Path := "/svc/Method", ContentType := "Basic" } ∧
      TripleHeaderHandler.ReadFromTripleReqHeader
        ⟨[("Authorization", ["Basic", "c2VjcmV0"]), ("Content-Type", ["application/grpc"])],
          "/svc/Method"⟩ =
        .returns { Path := "/svc/Method", ContentType := "application/grpc" } := by
  decide

theorem readEntry_unrecognized (th : TripleHeader) (k : String) (v : List String)
    (hk : k ∉ TripleHeaderHandler.caseNames) :
    TripleHeaderHandler.readEntry th k v = .returns th := by
  simp only [TripleHeaderHandler.caseNames, List.mem_cons, List.mem_singleton, not_or,
    List.not_mem_nil, not_false_eq_true, and_true] at hk
  obtain ⟨h1, h2, h3, h4, _, h6, h7, h8, h9⟩ := hk
  unfold TripleHeaderHandler.readEntry
  rw [if_neg h1, if_neg h2, if_neg h3, if_neg h4, if_neg h4, if_neg h6, if_neg h7, if_neg h8,
    if_neg h9]

theorem readEntries_append (th : TripleHeader) (a b : Header) :
    TripleHeaderHandler.readEntries th (a ++ b) =
      (TripleHeaderHandler.readEntries th a).andThen fun th1 =>
        TripleHeaderHandler.readEntries th1 b := by
  induction a generalizing th with
  | nil => rfl
  | cons e rest ih =>
    obtain ⟨k, v⟩ := e
    simp only [List.cons_append, TripleHeaderHandler.readEntries]
    cases TripleHeaderHandler.readEntry th k v with
    | returns th1 => exact ih th1
    | panics e => rfl

/-- C21 (unrecognized inbound fields are ignored): let `k` be none of the names the
inbound bridge recognizes (the canonical forms of tri-service-version,
tri-service-group, tri-req-id, tri-trace-traceid, tri-trace-proto-bin, tri-unit-info,
content-type and authorization). Wherever the entry `k` stands in the visiting order and
whatever its value list is, an empty one included, `ReadFromTripleReqHeader` gives the
same result with the entry as without it (adding, removing) and the same result for any
other value list (changing), and visiting the entry itself never faults and leaves the
`TripleHeader` as it is. -/
theorem unrecognized_field_ignored (k : String) (hk : k ∉ TripleHeaderHandler.caseNames)
    (before after : Header) (v v1 : List String) (path : String) (th : TripleHeader) :
    TripleHeaderHandler.ReadFromTripleReqHeader ⟨before ++ (k, v) :: after, path⟩ =
        TripleHeaderHandler.ReadFromTripleReqHeader ⟨before ++ after, path⟩ ∧
      TripleHeaderHandler.ReadFromTripleReqHeader ⟨before ++ (k, v) :: after, path⟩ =
        TripleHeaderHandler.ReadFromTripleReqHeader ⟨before ++ (k, v1) :: after, path⟩ ∧
      TripleHeaderHandler.readEntry th k v = .returns th := by
  have hskip : ∀ (w : List String) (th0 : TripleHeader),
      TripleHeaderHandler.readEntries th0 (before ++ (k, w) :: after) =
        TripleHeaderHandler.readEntries th0 (before ++ after) := by
    intro w th0
    rw [readEntries_append, readEntries_append]
    congr 1
    funext th1
    simp only [TripleHeaderHandler.readEntries, readEntry_unrecognized th1 k w hk]
  refine ⟨?_, ?_, readEntry_unrecognized th k v hk⟩
  · exact hskip v _
  · simp only [TripleHeaderHandler.ReadFromTripleReqHeader]
    rw [hskip v, hskip v1]

/-- Witness of C21: an X-Custom entry with an empty value list between two recognized
entries. -/
theorem unrecognized_field_ignored_witness :
    TripleHeaderHandler.ReadFromTripleReqHeader
        ⟨[("Tri-Req-Id", ["req-7"])] ++ ("X-Custom", []) :: [("Content-Type", ["a/b"])],
          "/svc/Method"⟩ =
        TripleHeaderHandler.ReadFromTripleReqHeader
          ⟨[("Tri-Req-Id", ["req-7"])] ++ [("Content-Type", ["a/b"])], "/svc/Method"⟩ ∧
      TripleHeaderHandler.ReadFromTripleReqHeader
        ⟨[("Tri-Req-Id", ["req-7"])] ++ ("X-Custom", []) :: [("Content-Type", ["a/b"])],
          "/svc/Method"⟩ =
        TripleHeaderHandler.ReadFromTripleReqHeader
          ⟨[("Tri-Req-Id", ["req-7"])] ++ ("X-Custom", ["1", "2"]) ::
            [("Content-Type", ["a/b"])], "/svc/Method"⟩ ∧
      TripleHeaderHandler.readEntry {} "X-Custom" [] = .returns {} :=
  unrecognized_field_ignored "X-Custom" (by decide) [("Tri-Req-Id", ["req-7"])]
    [("Content-Type", ["a/b"])] [] ["1", "2"] "/svc/Method" {}

theorem ite_returns_imp {c : Prop} [Decidable c] (P : TripleHeader → Prop)
    (a b : Res TripleHeader)
    (ha : ∀ th1, a = .returns th1 → P th1) (hb : ∀ th1, b = .returns th1 → P th1) :
    ∀ th1, (if c then a else b) = .returns th1 → P th1 := by
  by_cases hc : c
  · rw [if_pos hc]; exact ha
  · rw [if_neg hc]; exact hb

theorem firstValue_andThen_imp (P : TripleHeader → Prop) (v : List String)
    (upd : String → TripleHeader) (hupd : ∀ x, P (upd x)) :
    ∀ th1, (firstValue v).andThen (fun x => .returns (upd x)) = .returns th1 → P th1 := by
  intro th1 h
  cases v with
  | nil => cases h
  | cons x xs =>
    cases h
    exact hupd x

theorem readEntry_TracingRPCID (th : TripleHeader) (k : String) (v : List String) :
    ∀ th1, TripleHeaderHandler.readEntry th k v = .returns th1 →
      th1.TracingRPCID = th.TracingRPCID := by
  unfold TripleHeaderHandler.readEntry
  rw [canonical_TripleServiceVersion, canonical_TripleServiceGroup,
    canonical_TripleRequestID, canonical_TripleTraceID, canonical_TripleTraceProtoBin,
    canonical_TripleUnitInfo, canonical_content_type, canonical_authorization]
  by_cases hk : k = "Tri-Trace-Traceid"
  · subst hk
    rw [if_neg (by decide), if_neg (by decide), if_neg (by decide), if_pos rfl]
    exact firstValue_andThen_imp (fun th1 => th1.TracingRPCID = th.TracingRPCID) v _
      (fun _ => rfl)
  · rw [if_neg hk, if_neg hk]
    repeat (first
      | (intro th1 h; cases h; rfl)
      | refine ite_returns_imp (fun th1 => th1.TracingRPCID = th.TracingRPCID) _ _
          (firstValue_andThen_imp _ v _ (fun _ => rfl)) ?_)

theorem readEntries_TracingRPCID (h : Header) :
    ∀ th th1 : TripleHeader, TripleHeaderHandler.readEntries th h = .returns th1 →
      th1.TracingRPCID = th.TracingRPCID := by
  induction h with
  | nil =>
    intro th th1 hr
    cases hr
    rfl
  | cons e rest ih =>
    obtain ⟨k, v⟩ := e
    intro th th1 hr
    simp only [TripleHeaderHandler.readEntries] at hr
    cases he : TripleHeaderHandler.readEntry th k v with
    | returns th2 =>
      rw [he] at hr
      rw [ih th2 th1 hr, readEntry_TracingRPCID th k v th2 he]
    | panics e =>
      rw [he] at hr
      cases hr

/-- C22 (RPC-id never populates): whatever entries the request carries, a tri-trace-rpcid
entry included, every `TripleHeader` that `ReadFromTripleReqHeader` returns has an empty
TracingRPCID; and for a request whose header is a map with at least one value under each
name, it does return one, whose TracingRPCID is empty and whose TracingID is the first
value of the tri-trace-traceid entry (the empty string without such an entry). -/
theorem tracing_rpcid_never_populated (r : Request) :
    (∀ th, TripleHeaderHandler.ReadFromTripleReqHeader r = .returns th →
      th.TracingRPCID = "") ∧
    ((r.Header.map Prod.fst).Nodup → (∀ e ∈ r.Header, e.2 ≠ []) →
      ∃ th, TripleHeaderHandler.ReadFromTripleReqHeader r = .returns th ∧
        th.TracingRPCID = "" ∧ th.TracingID = r.Header.Get TripleTraceID) := by
  have hall : ∀ th, TripleHeaderHandler.ReadFromTripleReqHeader r = .returns th →
      th.TracingRPCID = "" := fun th hth =>
    readEntries_TracingRPCID r.Header { Path := r.URLPath } th hth
  refine ⟨hall, ?_⟩
  intro hkeys hvals
  obtain ⟨th, hth, hf⟩ := readEntries_field _ _ readsField_TracingID r.Header
    { Path := r.URLPath } hkeys hvals
  refine ⟨th, hth, hall th hth, ?_⟩
  rw [hf, Header.Get, canonical_TripleTraceID]

/-- Witness of C22: a request carrying both a tri-trace-rpcid and a tri-trace-traceid
entry. -/
theorem tracing_rpcid_never_populated_witness :
    ∃ th, TripleHeaderHandler.ReadFromTripleReqHeader
        ⟨[("Tri-Trace-Rpcid", ["rpc-9"]), ("Tri-Trace-Traceid", ["trace-1"])],
          "/svc/Method"⟩ = .returns th ∧
      th.TracingRPCID = "" ∧
      th.TracingID =
        Header.Get [("Tri-Trace-Rpcid", ["rpc-9"]), ("Tri-Trace-Traceid", ["trace-1"])]
          TripleTraceID :=
  (tracing_rpcid_never_populated
    ⟨[("Tri-Trace-Rpcid", ["rpc-9"]), ("Tri-Trace-Traceid", ["trace-1"])],
      "/svc/Method"⟩).2 (by decide) (by decide)

theorem canonical_TrailerKeyGrpcStatus :
    CanonicalMIMEHeaderKey TrailerKeyGrpcStatus = "Grpc-Status" := by decide

theorem canonical_TrailerKeyGrpcMessage :
    CanonicalMIMEHeaderKey TrailerKeyGrpcMessage = "Grpc-Message" := by decide

theorem canonical_TrailerKeyTraceProtoBin :
    CanonicalMIMEHeaderKey TrailerKeyTraceProtoBin = "Trace-Proto-Bin" := by decide

/-- C23 (trailer rendering): after `WriteTripleFinalRspHeaderField` the header map holds
under grpc-status (stored by `Header.Set` under its canonical name Grpc-Status) the
single value `strconv.Itoa n`, the decimal digits of `n` after a minus sign when `n` is
negative, and under grpc-message the single value `m`; every other entry is the one of
the input map, in particular the trace-proto-bin entry. -/
theorem final_rsp_header_fields (w : Header) (n : Int) (m : String) (traceProtoBin : Int)
    (key : String) :
    (TripleHeaderHandler.WriteTripleFinalRspHeaderField w n m traceProtoBin).get key =
        (if key = CanonicalMIMEHeaderKey "grpc-message" then some [m]
         else if key = CanonicalMIMEHeaderKey "grpc-status" then some [strconv.Itoa n]
         else w.get key) ∧
      (TripleHeaderHandler.WriteTripleFinalRspHeaderField w n m traceProtoBin).Get
        "grpc-status" = strconv.Itoa n ∧
      (TripleHeaderHandler.WriteTripleFinalRspHeaderField w n m traceProtoBin).Get
        "grpc-message" = m ∧
      (TripleHeaderHandler.WriteTripleFinalRspHeaderField w n m traceProtoBin).get
        (CanonicalMIMEHeaderKey "trace-proto-bin") =
        w.get (CanonicalMIMEHeaderKey "trace-proto-bin") ∧
      strconv.Itoa n = (if n < 0 then "-" ++ Nat.repr (-n).toNat else Nat.repr n.toNat) := by
  have hget : ∀ key1,
      (TripleHeaderHandler.WriteTripleFinalRspHeaderField w n m traceProtoBin).get key1 =
        (if key1 = "Grpc-Message" then some [m]
         else if key1 = "Grpc-Status" then some [strconv.Itoa n]
         else w.get key1) := by
    intro key1
    simp only [TripleHeaderHandler.WriteTripleFinalRspHeaderField, Header.Set,
      canonical_TrailerKeyGrpcStatus, canonical_TrailerKeyGrpcMessage, Header.get_set,
      eq_comm]
  have hs : CanonicalMIMEHeaderKey "grpc-status" = "Grpc-Status" :=
    canonical_TrailerKeyGrpcStatus
  have hm : CanonicalMIMEHeaderKey "grpc-message" = "Grpc-Message" :=
    canonical_TrailerKeyGrpcMessage
  have ht : CanonicalMIMEHeaderKey "trace-proto-bin" = "Trace-Proto-Bin" :=
    canonical_TrailerKeyTraceProtoBin
  refine ⟨?_, ?_, ?_, ?_, rfl⟩
  · rw [hs, hm]; exact hget key
  · rw [Header.Get, hs, hget, if_neg (by decide), if_pos rfl]; rfl
  · rw [Header.Get, hm, hget, if_pos rfl]; rfl
  · rw [ht, hget, if_neg (by decide), if_neg (by decide)]

/-! ## Close signal -/

/-- C24 (close signal fires at most once): take a processor as its constructor leaves it
(channel open, `Once` not fired) or as a `close()` leaves it (channel closed, `Once`
fired). Calling `close()` `k + 1` times in a row never panics and leaves the channel
closed and the `Once` fired; on a processor already in that state one more `close()`
changes nothing. Closing a closed channel is a panic, so the channel is closed exactly
once. -/
theorem close_idempotent {Msg : Type} (bp : baseProcessor Msg) (b : Bool) (k : Nat) :
    ({ bp with closeChain := b, quitOnce := b } : baseProcessor Msg).closeTimes (k + 1) =
        .returns { bp with closeChain := true, quitOnce := true } ∧
      ({ bp with closeChain := true, quitOnce := true } : baseProcessor Msg).close =
        .returns { bp with closeChain := true, quitOnce := true } ∧
      ({ bp with closeChain := false, quitOnce := false } : baseProcessor Msg).close =
        .returns { bp with closeChain := true, quitOnce := true } := by
  have hclosed : ({ bp with closeChain := true, quitOnce := true } : baseProcessor Msg).close =
      .returns { bp with closeChain := true, quitOnce := true } := rfl
  refine ⟨?_, hclosed, rfl⟩
  induction k with
  | zero => cases b <;> rfl
  | succ k ih =>
    show (baseProcessor.closeTimes _ (k + 1)).andThen baseProcessor.close = _
    rw [ih]
    exact hclosed

/-! ## Options -/

/-- C25 (option defaulting): after `SetEmptyFieldDefaultConfig`, Timeout is DefaultTimeout
when it was 0 and its former value otherwise, BufferSize is
DefaultHttp2ControllerReadBufferSize when it was 0 and its former value otherwise, and
SerializerType is PBSerializerName when it was empty and its former value otherwise. -/
theorem setEmptyFieldDefaultConfig_fields (c : CommonConstants) (o : config.Option) :
    (o.SetEmptyFieldDefaultConfig c).Timeout =
        (if o.Timeout = 0 then c.DefaultTimeout else o.Timeout) ∧
      (o.SetEmptyFieldDefaultConfig c).BufferSize =
        (if o.BufferSize = 0 then c.DefaultHttp2ControllerReadBufferSize
         else o.BufferSize) ∧
      (o.SetEmptyFieldDefaultConfig c).SerializerType =
        (if o.SerializerType = "" then c.PBSerializerName else o.SerializerType) := by
  refine ⟨?_, ?_, ?_⟩ <;>
    (simp only [config.Option.SetEmptyFieldDefaultConfig]; split_ifs <;> rfl)

theorem getLast?_cons_getD {α : Type} (a d : α) (l : List α) :
    (a :: l).getLast?.getD d = l.getLast?.getD a := by
  cases l with
  | nil => rfl
  | cons b l =>
    rw [List.getLast?_cons_cons]
    cases h : (b :: l).getLast? with
    | none => simp at h
    | some x => rfl

theorem applyOptions_args (args : List OptionArg) :
    ∀ o : config.Option,
      config.applyOptions (some o) (args.map OptionArg.fn) =
        .returns (some
          { Timeout := ((args.filterMap OptionArg.timeout?).getLast?).getD o.Timeout,
            BufferSize := ((args.filterMap OptionArg.bufferSize?).getLast?).getD o.BufferSize,
            SerializerType :=
              ((args.filterMap OptionArg.serializerType?).getLast?).getD o.SerializerType }) := by
  induction args with
  | nil => intro o; rfl
  | cons a rest ih =>
    intro o
    cases a with
    | clientTimeout timeout =>
      simp only [List.map_cons, config.applyOptions, OptionArg.fn, config.WithClientTimeout,
        ih, List.filterMap_cons, OptionArg.timeout?, OptionArg.bufferSize?,
        OptionArg.serializerType?, getLast?_cons_getD]
    | bufferSize size =>
      simp only [List.map_cons, config.applyOptions, OptionArg.fn, config.WithBufferSize,
        ih, List.filterMap_cons, OptionArg.timeout?, OptionArg.bufferSize?,
        OptionArg.serializerType?, getLast?_cons_getD]
    | serializerType name =>
      simp only [List.map_cons, config.applyOptions, OptionArg.fn, config.WithSerializerType,
        ih, List.filterMap_cons, OptionArg.timeout?, OptionArg.bufferSize?,
        OptionArg.serializerType?, getLast?_cons_getD]

/-- C26 (option construction): for every list of option functions built from
`WithClientTimeout`, `WithBufferSize` and `WithSerializerType`, `NewTripleOption` returns,
without a panic, a non-nil `Option` in which each field holds the argument of the last
option of the list that sets it, and the zero value when none does; for the empty list it
returns the all-zero `Option`. -/
theorem newTripleOption_fields (args : List OptionArg) :
    config.NewTripleOption (args.map OptionArg.fn) =
        .returns (some
          { Timeout := ((args.filterMap OptionArg.timeout?).getLast?).getD 0,
            BufferSize := ((args.filterMap OptionArg.bufferSize?).getLast?).getD 0,
            SerializerType := ((args.filterMap OptionArg.serializerType?).getLast?).getD "" }) ∧
      config.NewTripleOption [] =
        .returns (some { Timeout := 0, BufferSize := 0, SerializerType := "" }) :=
  ⟨applyOptions_args args {}, rfl⟩

/-! ## Path tools -/

theorem path_result_short (t : Texts) (path : GoString)
    (hlen : (strings.Split path 47).length < 3) :
    GetServiceKeyAndUpperCaseMethodNameFromPath t path =
      ([], [], some (status.Errorf t codes.Internal "invalid triple header path = %s"
        [path.text])) := by
  unfold GetServiceKeyAndUpperCaseMethodNameFromPath
  simp only [hlen, if_true]

theorem path_result_empty (t : Texts) (path : GoString) (a svc : GoString)
    (rest : List GoString) (hsplit : strings.Split path 47 = a :: svc :: [] :: rest) :
    GetServiceKeyAndUpperCaseMethodNameFromPath t path =
      ([], [], some (status.Errorf t codes.Internal "invalid method name = %s"
        [GoString.text []])) := by
  have hlen : ¬ (a :: svc :: ([] : GoString) :: rest).length < 3 := by
    simp only [List.length_cons]
    omega
  unfold GetServiceKeyAndUpperCaseMethodNameFromPath
  simp only [hsplit, if_neg hlen]
  rfl

theorem path_result_method (t : Texts) (path : GoString) (a svc tail : GoString)
    (b : UInt8) (rest : List GoString)
    (hsplit : strings.Split path 47 = a :: svc :: (b :: tail) :: rest) :
    GetServiceKeyAndUpperCaseMethodNameFromPath t path =
      (svc, upperOfByte b ++ tail, none) := by
  have hlen : ¬ (a :: svc :: (b :: tail) :: rest).length < 3 := by
    simp only [List.length_cons]
    omega
  unfold GetServiceKeyAndUpperCaseMethodNameFromPath
  simp only [hsplit, if_neg hlen]
  rfl

/-- C27 (path validation): `GetServiceKeyAndUpperCaseMethodNameFromPath` returns an error
if and only if splitting the path on "/" yields fewer than three segments or an empty
third segment; an error it returns is a status error with code Internal and comes with
two empty strings. -/
theorem path_validation (t : Texts) (path : GoString) :
    ((GetServiceKeyAndUpperCaseMethodNameFromPath t path).2.2.isSome = true ↔
      ((strings.Split path 47).length < 3 ∨ (strings.Split path 47)[2]? = some [])) ∧
    (∀ e, (GetServiceKeyAndUpperCaseMethodNameFromPath t path).2.2 = some e →
      (GetServiceKeyAndUpperCaseMethodNameFromPath t path).1 = [] ∧
        (GetServiceKeyAndUpperCaseMethodNameFromPath t path).2.1 = [] ∧
        ∃ msg, e = .statusError ⟨codes.Internal, msg⟩) := by
  by_cases hlen : (strings.Split path 47).length < 3
  · rw [path_result_short t path hlen]
    refine ⟨⟨fun _ => Or.inl hlen, fun _ => rfl⟩, ?_⟩
    intro e he
    cases he
    exact ⟨rfl, rfl, _, rfl⟩
  · rcases hpl : strings.Split path 47 with _ | ⟨a, _ | ⟨b, _ | ⟨m, rest⟩⟩⟩
    · rw [hpl] at hlen; simp at hlen
    · rw [hpl] at hlen; simp at hlen
    · rw [hpl] at hlen; simp at hlen
    · cases m with
      | nil =>
        rw [path_result_empty t path a b rest hpl]
        refine ⟨⟨fun _ => Or.inr (by simp), fun _ => rfl⟩, ?_⟩
        intro e he
        cases he
        exact ⟨rfl, rfl, _, rfl⟩
      | cons c tail =>
        rw [path_result_method t path a b tail c rest hpl]
        refine ⟨⟨fun h => (by cases h), ?_⟩, ?_⟩
        · rintro (h | h)
          · simp only [List.length_cons] at h
            omega
          · simp at h
        · intro e he
          cases he

/-- Witness of C27: the path "/svc/", whose third segment is empty. -/
theorem path_validation_witness :
    (GetServiceKeyAndUpperCaseMethodNameFromPath plainTexts [47, 115, 118, 99, 47]).2.2.isSome =
      true :=
  (path_validation plainTexts [47, 115, 118, 99, 47]).1.mpr (Or.inr (by decide))

/-- C28 (path result) fails on the code at this input: the path "/s/" followed by the
bytes C3 A9 61 (the UTF-8 text "éa"). The service key "s" is returned unchanged, but the
method name is C3 83 A9 61: the first byte alone was converted to a string, which is the
two-byte encoding of the code point C3, so the result is one byte longer than the
segment and its second byte is not a byte of the segment. -/
theorem method_name_non_ascii_first_byte :
    strings.Split [47, 115, 47, 0xC3, 0xA9, 0x61] 47 = [[], [115], [0xC3, 0xA9, 0x61]] ∧
      GetServiceKeyAndUpperCaseMethodNameFromPath plainTexts [47, 115, 47, 0xC3, 0xA9, 0x61] =
        ([115], [0xC3, 0x83, 0xA9, 0x61], none) ∧
      (GetServiceKeyAndUpperCaseMethodNameFromPath plainTexts
        [47, 115, 47, 0xC3, 0xA9, 0x61]).2.1.length ≠
        ([0xC3, 0xA9, 0x61] : GoString).length := by
  decide

/-- For a first byte below 128 the claim of C28 holds: the service key is the second
segment, the method name is the third segment with its first byte replaced by one byte,
the upper-case letter for a-z and the byte itself otherwise, and the segments after the
third play no part. -/
theorem method_name_ascii_first_byte (t : Texts) (path : GoString) (a svc tail : GoString)
    (rest : List GoString) (b : UInt8)
    (hsplit : strings.Split path 47 = a :: svc :: (b :: tail) :: rest)
    (hb : b.toNat < 128) :
    GetServiceKeyAndUpperCaseMethodNameFromPath t path =
      (svc,
        UInt8.ofNat (if 97 ≤ b.toNat ∧ b.toNat ≤ 122 then b.toNat - 32 else b.toNat) :: tail,
        none) := by
  have hup : upperOfByte b =
      [UInt8.ofNat (if 97 ≤ b.toNat ∧ b.toNat ≤ 122 then b.toNat - 32 else b.toNat)] := by
    unfold upperOfByte unicode.ToUpper utf8Encode
    by_cases h1 : 97 ≤ b.toNat ∧ b.toNat ≤ 122
    · have h2 : b.toNat - 32 < 128 := by omega
      rw [if_pos h1, if_pos h1, if_pos h2]
    · have h3 : ¬ b.toNat = 181 := by omega
      have h4 : ¬ ((224 ≤ b.toNat ∧ b.toNat ≤ 246) ∨ (248 ≤ b.toNat ∧ b.toNat ≤ 254)) := by
        omega
      have h5 : ¬ b.toNat = 255 := by omega
      rw [if_neg h1, if_neg h1, if_neg h3, if_neg h4, if_neg h5, if_pos hb]
  rw [path_result_method t path a svc tail b rest hsplit]
  simp only [hup, List.singleton_append]

end Triple
